import Mathlib

/-!
# cachely: an in-memory cache with lazy population and expiration

A shallow embedding of `cachely.go`.

* Go values held in an `interface{}` are modelled by `Value`; the part of the
  caller's memory that pointers and slices refer to is a `Heap`.
* `map[string]CacheObject` is an association list with `mapLookup` for `m[k]`
  and `mapStore` for `m[k] = v`.
* `time.Now()` is an explicit argument: the instant in nanoseconds since the
  Unix epoch. `UnixNano` converts it to the signed 64-bit value the code
  compares and stores.
* The `reflect` calls of `Cache.Get` are modelled one by one (`reflectValueOf`,
  `RValue.Elem`, `RValue.Kind`, `RValue.Len`, `RValue.Interface`,
  `RValue.Set`); a call that panics in Go yields `none`.
* The loader passed to `Get` is a closure: it acts on the cache (it may call
  `Set`, `Get` or `Flush`, since `Get` holds no lock while it runs) and on
  the caller's memory, and `Get` continues from the cache the loader left.
* The calls on the mutex are recorded as events by the traced operations
  (`Cache.getTraced`, `Cache.SetTraced`, `Cache.FlushTraced`) and checked
  against what one goroutine holds (`Held`); interleavings of several
  goroutines are not modelled.
-/

namespace Cachely

/-! ## Go types and values -/

/-- The Go types that the model distinguishes. `iface` is `interface{}`. -/
inductive GoType where
  | bool
  | int
  | string
  | struct (name : String)
  | array (len : Nat) (elem : GoType)
  | slice (elem : GoType)
  | ptr (elem : GoType)
  | iface
  deriving DecidableEq, Repr

/-- The kinds of `reflect.Kind` that the model distinguishes. -/
inductive Kind where
  | Invalid
  | Bool
  | Int
  | String
  | Struct
  | Array
  | Slice
  | Ptr
  | Interface
  deriving DecidableEq, Repr

/-- The kind of a type, as `reflect.Type.Kind` reports it. -/
def GoType.kind : GoType → Kind
  | .bool => .Bool
  | .int => .Int
  | .string => .String
  | .struct _ => .Struct
  | .array _ _ => .Array
  | .slice _ => .Slice
  | .ptr _ => .Ptr
  | .iface => .Interface

/-- A Go value as an `interface{}` holds it. `nil` is the nil interface value,
which has no dynamic type. A slice is its header: element type, the address of
its backing array (`none` for a nil slice) and its length. A pointer is its
element type and the address it points to (`none` for a nil pointer). -/
inductive Value where
  | nil
  | bool (b : Bool)
  | int (n : Int)
  | str (s : String)
  | struct (name : String) (fields : List Value)
  | array (elem : GoType) (elems : List Value)
  | slice (elem : GoType) (data : Option Nat) (len : Nat)
  | ptr (elem : GoType) (addr : Option Nat)

mutual
/-- Decidable equality of values. -/
def Value.decEq : (a b : Value) → Decidable (a = b)
  | .nil, .nil => isTrue rfl
  | .bool a, .bool b => if h : a = b then isTrue (by rw [h]) else isFalse (by intro e; cases e; exact h rfl)
  | .int a, .int b => if h : a = b then isTrue (by rw [h]) else isFalse (by intro e; cases e; exact h rfl)
  | .str a, .str b => if h : a = b then isTrue (by rw [h]) else isFalse (by intro e; cases e; exact h rfl)
  | .struct n fs, .struct n' fs' =>
    if hn : n = n' then
      match Value.decEqList fs fs' with
      | isTrue hf => isTrue (by rw [hn, hf])
      | isFalse hf => isFalse (by intro e; cases e; exact hf rfl)
    else isFalse (by intro e; cases e; exact hn rfl)
  | .array t fs, .array t' fs' =>
    if hn : t = t' then
      match Value.decEqList fs fs' with
      | isTrue hf => isTrue (by rw [hn, hf])
      | isFalse hf => isFalse (by intro e; cases e; exact hf rfl)
    else isFalse (by intro e; cases e; exact hn rfl)
  | .slice t a n, .slice t' a' n' =>
    if h : t = t' ∧ a = a' ∧ n = n' then isTrue (by rw [h.1, h.2.1, h.2.2])
    else isFalse (by intro e; cases e; exact h ⟨rfl, rfl, rfl⟩)
  | .ptr t a, .ptr t' a' =>
    if h : t = t' ∧ a = a' then isTrue (by rw [h.1, h.2])
    else isFalse (by intro e; cases e; exact h ⟨rfl, rfl⟩)
  | .nil, .bool _ | .nil, .int _ | .nil, .str _ | .nil, .struct _ _ | .nil, .array _ _
  | .nil, .slice _ _ _ | .nil, .ptr _ _ => isFalse (by intro e; cases e)
  | .bool _, .nil | .bool _, .int _ | .bool _, .str _ | .bool _, .struct _ _ | .bool _, .array _ _
  | .bool _, .slice _ _ _ | .bool _, .ptr _ _ => isFalse (by intro e; cases e)
  | .int _, .nil | .int _, .bool _ | .int _, .str _ | .int _, .struct _ _ | .int _, .array _ _
  | .int _, .slice _ _ _ | .int _, .ptr _ _ => isFalse (by intro e; cases e)
  | .str _, .nil | .str _, .bool _ | .str _, .int _ | .str _, .struct _ _ | .str _, .array _ _
  | .str _, .slice _ _ _ | .str _, .ptr _ _ => isFalse (by intro e; cases e)
  | .struct _ _, .nil | .struct _ _, .bool _ | .struct _ _, .int _ | .struct _ _, .str _
  | .struct _ _, .array _ _ | .struct _ _, .slice _ _ _ | .struct _ _, .ptr _ _ =>
    isFalse (by intro e; cases e)
  | .array _ _, .nil | .array _ _, .bool _ | .array _ _, .int _ | .array _ _, .str _
  | .array _ _, .struct _ _ | .array _ _, .slice _ _ _ | .array _ _, .ptr _ _ =>
    isFalse (by intro e; cases e)
  | .slice _ _ _, .nil | .slice _ _ _, .bool _ | .slice _ _ _, .int _ | .slice _ _ _, .str _
  | .slice _ _ _, .struct _ _ | .slice _ _ _, .array _ _ | .slice _ _ _, .ptr _ _ =>
    isFalse (by intro e; cases e)
  | .ptr _ _, .nil | .ptr _ _, .bool _ | .ptr _ _, .int _ | .ptr _ _, .str _
  | .ptr _ _, .struct _ _ | .ptr _ _, .array _ _ | .ptr _ _, .slice _ _ _ =>
    isFalse (by intro e; cases e)
/-- Decidable equality of lists of values. -/
def Value.decEqList : (as bs : List Value) → Decidable (as = bs)
  | [], [] => isTrue rfl
  | [], _ :: _ => isFalse (by intro e; cases e)
  | _ :: _, [] => isFalse (by intro e; cases e)
  | a :: as, b :: bs =>
    match Value.decEq a b with
    | isTrue h =>
      match Value.decEqList as bs with
      | isTrue hs => isTrue (by rw [h, hs])
      | isFalse hs => isFalse (by intro e; cases e; exact hs rfl)
    | isFalse h => isFalse (by intro e; cases e; exact h rfl)
end

instance : DecidableEq Value := Value.decEq

/-- The dynamic type of a value; the nil interface value has none. -/
def Value.typeOf : Value → Option GoType
  | .nil => none
  | .bool _ => some .bool
  | .int _ => some .int
  | .str _ => some .string
  | .struct name _ => some (.struct name)
  | .array elem elems => some (.array elems.length elem)
  | .slice elem _ _ => some (.slice elem)
  | .ptr elem _ => some (.ptr elem)

/-- The length of a value that has one (what `len` gives in Go). -/
def Value.len : Value → Nat
  | .str s => s.length
  | .array _ elems => elems.length
  | .slice _ _ n => n
  | _ => 0

/-- The caller's memory: the content of each addressable variable. A variable
of static type `interface{}` holds its dynamic value, or `Value.nil`. -/
abbrev Heap := Nat → Value

/-- Assignment to the variable at address `a`. -/
def Heap.write (h : Heap) (a : Nat) (v : Value) : Heap :=
  fun b => if b = a then v else h b

/-- A Go `error` value; `none` in an `Option GoError` is the nil error. -/
abbrev GoError := String

/-! ## The `reflect` operations used by `Get` -/

/-- A `reflect.Value`: the zero Value, an addressable variable of a static
type (the result of `Elem` on a pointer), or a plain value. -/
inductive RValue where
  | zero
  | var (ty : GoType) (addr : Nat)
  | val (v : Value)

/-- The function `reflect.ValueOf`: the zero Value for a nil interface. -/
def reflectValueOf : Value → RValue
  | .nil => .zero
  | v => .val v

/-- The method `Value.Elem`: the variable a pointer points to (the zero Value
for a nil pointer) or the value an interface holds; `none` is the panic on
every other kind. -/
def RValue.Elem (h : Heap) : RValue → Option RValue
  | .val (.ptr ty (some a)) => some (.var ty a)
  | .val (.ptr _ none) => some .zero
  | .var (.ptr ty) a =>
    match h a with
    | .ptr _ (some b) => some (.var ty b)
    | _ => some .zero
  | .var .iface a => some (reflectValueOf (h a))
  | _ => none

/-- The method `Value.Kind`. -/
def RValue.Kind : RValue → Kind
  | .zero => .Invalid
  | .var ty _ => ty.kind
  | .val v =>
    match v.typeOf with
    | some ty => ty.kind
    | none => .Invalid

/-- The method `Value.Len`; `Get` calls it only behind `Kind() == reflect.Slice`. -/
def RValue.Len (h : Heap) : RValue → Nat
  | .zero => 0
  | .var _ a => (h a).len
  | .val v => v.len

/-- The method `Value.Interface`: the value as an `interface{}`; `none` is the
panic on the zero Value. -/
def RValue.Interface (h : Heap) : RValue → Option Value
  | .zero => none
  | .var _ a => some (h a)
  | .val v => some v

/-- Whether a value of dynamic type `src` may be assigned to a variable of
type `dst`: the types are identical or `dst` is `interface{}`. -/
def assignableTo (src dst : GoType) : Bool :=
  decide (src = dst) || decide (dst = .iface)

/-- The method `Value.Set`: `rv.Set(x)` assigns `x` to the variable `rv`.
`none` is a panic: `rv` is not an addressable variable, `x` is the zero
Value, or the type of `x` is not assignable to the type of `rv`. -/
def RValue.Set (h : Heap) (rv x : RValue) : Option Heap :=
  match rv with
  | .var ty a =>
    match x with
    | .zero => none
    | .val v =>
      match v.typeOf with
      | some tv => if assignableTo tv ty then some (h.write a v) else none
      | none => none
    | .var tx b => if assignableTo tx ty then some (h.write a (h b)) else none
  | _ => none

/-! ## The cache -/

/-- CacheObject holds the records and the expiration time. -/
structure CacheObject where
  Records : Value
  Expiration : Int
  deriving DecidableEq

/-- The map index expression `m[k]` with the comma-ok result. -/
def mapLookup : List (String × CacheObject) → String → Option CacheObject
  | [], _ => none
  | (k', obj) :: m, k => if k' = k then some obj else mapLookup m k

/-- The map assignment `m[k] = obj`: replaces the entry of `k` or adds one. -/
def mapStore : List (String × CacheObject) → String → CacheObject →
    List (String × CacheObject)
  | [], k, obj => [(k, obj)]
  | (k', obj') :: m, k, obj =>
    if k' = k then (k, obj) :: m else (k', obj') :: mapStore m k obj

/-- Cache is a simple in-memory cache with expiration. -/
structure Cache where
  cache : List (String × CacheObject)
  deriving DecidableEq

/-- The number of entries, `len(c.cache)`. -/
def Cache.entries (c : Cache) : Nat := c.cache.length

/-- New creates a new Cache object with an empty map. -/
def New : Cache := { cache := [] }

/-- Reduction of an integer to the signed 64-bit range (two's complement). -/
def wrap64 (x : Int) : Int := (x + 2 ^ 63) % 2 ^ 64 - 2 ^ 63

/-- Membership in the signed 64-bit range. -/
def inInt64 (x : Int) : Prop := -(2 ^ 63) ≤ x ∧ x < 2 ^ 63

instance (x : Int) : Decidable (inInt64 x) := by
  unfold inInt64; exact inferInstance

/-- The method `Time.UnixNano` of the instant `t` nanoseconds after the Unix
epoch: an `int64`, wrapping outside its range. -/
def UnixNano (t : Int) : Int := wrap64 t

/-- Flush clears the cache. -/
def Cache.Flush (_c : Cache) : Cache := { cache := [] }

/-- Set writes `CacheObject{x, e}` under `k`, where `e` is
`time.Now().Add(d).UnixNano()` if `d > 0` and `0` otherwise. `now` is the
instant that `time.Now()` returns. -/
def Cache.Set (c : Cache) (k : String) (x : Value) (d : Int) (now : Int) : Cache :=
  let e : Int := if d > 0 then UnixNano (now + d) else 0
  { cache := mapStore c.cache k { Records := x, Expiration := e } }

/-- The internal lookup: not found when the key is absent, or when the entry
has a positive expiration that `time.Now().UnixNano()` exceeds. `now` is the
instant that `time.Now()` returns. -/
def Cache.get (c : Cache) (k : String) (now : Int) : Value × Bool :=
  match mapLookup c.cache k with
  | none => (Value.nil, false)
  | some obj =>
    if obj.Expiration > 0 then
      if UnixNano now > obj.Expiration then (Value.nil, false)
      else (obj.Records, true)
    else (obj.Records, true)

/-- How a call ends: it returns an error value (`none` is nil) or it panics. -/
inductive Outcome where
  | returned (err : Option GoError)
  | panicked
  deriving DecidableEq

/-- What a call of the loader leaves behind. The loader is a closure: `Get`
holds no lock while it runs, so it may call `Set`, `Get` or `Flush` on the
cache as well as write the caller's memory. `err` is the error it returns,
`none` for nil. -/
structure LoaderResult where
  cache : Cache
  heap : Heap
  err : Option GoError

/-- The loader passed to `Get`: it receives the destination and acts on the
cache and on the caller's memory. -/
abbrev Loader := Value → Cache → Heap → LoaderResult

/-- The state after a call of `Get`: the cache, the caller's memory, how often
the loader was invoked during the call, and how the call ended. -/
structure GetResult where
  cache : Cache
  heap : Heap
  fnCalls : Nat
  outcome : Outcome

/-- Get retrieves the data from the cache. On a miss it calls `fn` and, unless
`fn` fails or the destination is an empty slice, stores the destination's
value in the cache as `fn` left it; on a hit it copies the stored value to the
destination. `now` is the instant of the lookup, `now'` the instant at which
`Set` runs after `fn`. -/
def Cache.Get (c : Cache) (key : String) (dest : Value) (d : Int) (fn : Loader)
    (h : Heap) (now now' : Int) : GetResult :=
  let (records, found) := c.get key now
  if !found then
    let r := fn dest c h
    match r.err with
    | some e => { cache := r.cache, heap := r.heap, fnCalls := 1, outcome := .returned (some e) }
    | none =>
      match (reflectValueOf dest).Elem r.heap with
      | none => { cache := r.cache, heap := r.heap, fnCalls := 1, outcome := .panicked }
      | some rv =>
        if (rv.Kind = Kind.Slice ∧ rv.Len r.heap > 0) ∨ rv.Kind ≠ Kind.Slice then
          match rv.Interface r.heap with
          | none => { cache := r.cache, heap := r.heap, fnCalls := 1, outcome := .panicked }
          | some v =>
            { cache := r.cache.Set key v d now', heap := r.heap, fnCalls := 1,
              outcome := .returned none }
        else { cache := r.cache, heap := r.heap, fnCalls := 1, outcome := .returned none }
  else
    match (reflectValueOf dest).Elem h with
    | none => { cache := c, heap := h, fnCalls := 0, outcome := .panicked }
    | some rv =>
      let rv2 := reflectValueOf records
      match rv.Set h rv2 with
      | none => { cache := c, heap := h, fnCalls := 0, outcome := .panicked }
      | some h2 => { cache := c, heap := h2, fnCalls := 0, outcome := .returned none }

/-- Whether a value is a slice of length zero (a nil slice included). -/
def isEmptySlice : Value → Bool
  | .slice _ _ 0 => true
  | _ => false

/-- The loader of the tests: it assigns `v` to the destination variable at
address `a` and succeeds. -/
def loaderSetting (a : Nat) (v : Value) : Loader :=
  fun _ c h => { cache := c, heap := h.write a v, err := none }

/-- The loader of the tests that does nothing and succeeds. -/
def loaderNoop : Loader := fun _ c h => { cache := c, heap := h, err := none }

/-- A loader that fails with the error `e` and leaves the cache and the memory
as they are. -/
def loaderFailing (e : GoError) : Loader :=
  fun _ c h => { cache := c, heap := h, err := some e }

/-- A memory in which every variable holds the nil interface value. -/
def emptyHeap : Heap := fun _ => Value.nil

/-- A loader that performs a list of assignments `(address, value)`, first to
last, and succeeds. -/
def loaderWriting (ws : List (Nat × Value)) : Loader :=
  fun _ c h =>
    { cache := c,
      heap := ws.foldl (fun (m : Heap) (w : Nat × Value) => m.write w.1 w.2) h,
      err := none }

/-- A loader that does what `fn` does, then calls `c.Set(k, x, d)` on the
cache at the instant `t`, and returns what `fn` returns. -/
def loaderThenSet (fn : Loader) (k : String) (x : Value) (d t : Int) : Loader :=
  fun dest c h =>
    { cache := (fn dest c h).cache.Set k x d t,
      heap := (fn dest c h).heap,
      err := (fn dest c h).err }

/-! ## The operations with their mutex calls -/

/-- What an operation does with `c.mu` and `c.cache`, in program order:
the four calls on the `sync.RWMutex`, a read of the map and a write of it. -/
inductive MuEvent where
  | RLock
  | RUnlock
  | Lock
  | Unlock
  | mapRead
  | mapWrite
  deriving DecidableEq, Repr

/-- One run of an operation: its events in program order, the cache when it
returns and what it returns. -/
structure Traced (α : Type) where
  events : List MuEvent
  cache : Cache
  result : α

/-- The internal lookup statement by statement: `c.mu.RLock()`, the read
`obj, ok := c.cache[k]`, then one of the three return paths, each with its
`c.mu.RUnlock()`. -/
def Cache.getTraced (c : Cache) (k : String) (now : Int) : Traced (Value × Bool) :=
  let t1 : List MuEvent := [MuEvent.RLock, MuEvent.mapRead]
  match mapLookup c.cache k with
  | none => { events := t1 ++ [MuEvent.RUnlock], cache := c, result := (Value.nil, false) }
  | some obj =>
    if obj.Expiration > 0 then
      if UnixNano now > obj.Expiration then
        { events := t1 ++ [MuEvent.RUnlock], cache := c, result := (Value.nil, false) }
      else { events := t1 ++ [MuEvent.RUnlock], cache := c, result := (obj.Records, true) }
    else { events := t1 ++ [MuEvent.RUnlock], cache := c, result := (obj.Records, true) }

/-- Set statement by statement: the expiration is computed, then
`c.mu.Lock()`, the write `c.cache[k] = CacheObject{x, e}`, `c.mu.Unlock()`. -/
def Cache.SetTraced (c : Cache) (k : String) (x : Value) (d : Int) (now : Int) :
    Traced Unit :=
  let e : Int := if d > 0 then UnixNano (now + d) else 0
  { events := [MuEvent.Lock, MuEvent.mapWrite, MuEvent.Unlock],
    cache := { cache := mapStore c.cache k { Records := x, Expiration := e } },
    result := () }

/-- Flush statement by statement: `c.mu.Lock()`, the write
`c.cache = map[string]CacheObject{}`, `c.mu.Unlock()`. -/
def Cache.FlushTraced (_c : Cache) : Traced Unit :=
  { events := [MuEvent.Lock, MuEvent.mapWrite, MuEvent.Unlock],
    cache := { cache := [] },
    result := () }

/-- What the running goroutine holds of `c.mu`: its number of shared holds and
whether it holds the mutex exclusively. -/
structure Held where
  shared : Nat
  exclusive : Bool
  deriving DecidableEq, Repr

/-- The effect of one event on what the goroutine holds; `none` when the event
breaks the discipline: a map read with no hold, a map write without the
exclusive hold, a release of what is not held (a fatal error of
`sync.RWMutex`), or an acquisition that conflicts with the goroutine's own
hold (it would block for ever). -/
def Held.step (m : Held) : MuEvent → Option Held
  | .RLock => if m.exclusive then none else some { m with shared := m.shared + 1 }
  | .RUnlock => if m.shared = 0 then none else some { m with shared := m.shared - 1 }
  | .Lock => if m.exclusive ∨ m.shared ≠ 0 then none else some { m with exclusive := true }
  | .Unlock => if m.exclusive then some { m with exclusive := false } else none
  | .mapRead => if m.exclusive ∨ m.shared ≠ 0 then some m else none
  | .mapWrite => if m.exclusive then some m else none

/-- The holds after a sequence of events, `none` if one of them breaks the
discipline. -/
def Held.run : Held → List MuEvent → Option Held
  | m, [] => some m
  | m, e :: es =>
    match m.step e with
    | none => none
    | some m' => Held.run m' es

/-! ## What a value denotes in memory -/

mutual
/-- The addresses a value refers to: the backing array of a slice, the target
of a pointer, and those of the fields and elements it contains. -/
def Value.refs : Value → List Nat
  | .nil => []
  | .bool _ => []
  | .int _ => []
  | .str _ => []
  | .struct _ fields => Value.refsList fields
  | .array _ elems => Value.refsList elems
  | .slice _ (some a) _ => [a]
  | .slice _ none _ => []
  | .ptr _ (some a) => [a]
  | .ptr _ none => []
/-- The addresses a list of values refers to. -/
def Value.refsList : List Value → List Nat
  | [] => []
  | v :: vs => v.refs ++ Value.refsList vs
end

/-- What the holder of a value sees: the value and the content of the memory
it refers to. -/
def observe (h : Heap) (v : Value) : Value × List Value :=
  (v, v.refs.map h)

/-! ## Sequences of calls -/

/-- The arguments of one call of `Get` apart from the key: the destination,
the duration, the loader, the caller's memory at the call and the two
instants. -/
structure GetCall where
  dest : Value
  d : Int
  fn : Loader
  heap : Heap
  now : Int
  now' : Int

/-- The cache after a sequence of calls of `Get` with one key. -/
def Cache.GetMany (c : Cache) (key : String) : List GetCall → Cache
  | [] => c
  | g :: gs => Cache.GetMany (c.Get key g.dest g.d g.fn g.heap g.now g.now').cache key gs

/-! ## Lemmas on the map, the clock and `reflect` -/

theorem mapLookup_mapStore_self (m : List (String × CacheObject)) (k : String)
    (obj : CacheObject) : mapLookup (mapStore m k obj) k = some obj := by
  induction m with
  | nil => simp [mapStore, mapLookup]
  | cons p m ih =>
    obtain ⟨k', obj'⟩ := p
    by_cases hk : k' = k
    · simp [mapStore, mapLookup, hk]
    · simp [mapStore, mapLookup, hk, ih]

theorem mapLookup_mapStore_ne (m : List (String × CacheObject)) (k k' : String)
    (obj : CacheObject) (hne : k' ≠ k) :
    mapLookup (mapStore m k obj) k' = mapLookup m k' := by
  induction m with
  | nil => simp [mapStore, mapLookup, Ne.symm hne]
  | cons p m ih =>
    obtain ⟨k0, obj0⟩ := p
    by_cases hk : k0 = k
    · subst hk
      simp [mapStore, mapLookup, Ne.symm hne]
    · by_cases hk' : k0 = k'
      · subst hk'
        simp [mapStore, mapLookup, hk]
      · simp [mapStore, mapLookup, hk, hk', ih]

theorem length_mapStore_absent (m : List (String × CacheObject)) (k : String)
    (obj : CacheObject) (habs : mapLookup m k = none) :
    (mapStore m k obj).length = m.length + 1 := by
  induction m with
  | nil => simp [mapStore]
  | cons p m ih =>
    obtain ⟨k0, obj0⟩ := p
    by_cases hk : k0 = k
    · simp [mapLookup, hk] at habs
    · simp [mapLookup, hk] at habs
      simp [mapStore, hk, ih habs]

theorem length_mapStore_present (m : List (String × CacheObject)) (k : String)
    (obj : CacheObject) (hpres : mapLookup m k ≠ none) :
    (mapStore m k obj).length = m.length := by
  induction m with
  | nil => simp [mapLookup] at hpres
  | cons p m ih =>
    obtain ⟨k0, obj0⟩ := p
    by_cases hk : k0 = k
    · simp [mapStore, hk]
    · simp [mapLookup, hk] at hpres
      simp [mapStore, hk, ih hpres]

theorem wrap64_of_inInt64 (x : Int) (hx : inInt64 x) : wrap64 x = x := by
  unfold inInt64 at hx
  unfold wrap64
  omega

theorem wrap64_inInt64 (x : Int) : inInt64 (wrap64 x) := by
  unfold inInt64 wrap64
  omega

/-- The lookup in terms of the entry of the key. -/
theorem get_of_lookup (c : Cache) (k : String) (now : Int) (obj : CacheObject)
    (hobj : mapLookup c.cache k = some obj) :
    c.get k now =
      if 0 < obj.Expiration ∧ obj.Expiration < UnixNano now then (Value.nil, false)
      else (obj.Records, true) := by
  unfold Cache.get
  rw [hobj]
  by_cases h1 : 0 < obj.Expiration
  · by_cases h2 : obj.Expiration < UnixNano now
    · simp [h1, h2]
    · simp [h1, h2]
  · simp [h1]

theorem get_of_absent (c : Cache) (k : String) (now : Int)
    (habs : mapLookup c.cache k = none) : c.get k now = (Value.nil, false) := by
  unfold Cache.get
  rw [habs]

/-- A miss stays a miss at every later instant, as long as the map is the same. -/
theorem get_miss_later (c : Cache) (k : String) (now t : Int)
    (hnow : inInt64 now) (ht : inInt64 t) (hle : now ≤ t)
    (hmiss : (c.get k now).2 = false) : (c.get k t).2 = false := by
  cases hobj : mapLookup c.cache k with
  | none => rw [get_of_absent c k t hobj]
  | some obj =>
    rw [get_of_lookup c k now obj hobj] at hmiss
    rw [get_of_lookup c k t obj hobj]
    unfold UnixNano at *
    rw [wrap64_of_inInt64 now hnow] at hmiss
    rw [wrap64_of_inInt64 t ht]
    by_cases h : 0 < obj.Expiration ∧ obj.Expiration < now
    · have h' : 0 < obj.Expiration ∧ obj.Expiration < t := ⟨h.1, by omega⟩
      simp [h']
    · simp [h] at hmiss

/-! ## The three paths of `Get` -/

/-- The hit path: the stored value is assigned to the destination variable,
the cache is untouched and the loader is not used. -/
theorem Get_of_hit (c : Cache) (key : String) (T tv : GoType) (a : Nat) (d : Int)
    (fn : Loader) (h : Heap) (now now' : Int) (x : Value)
    (hget : c.get key now = (x, true)) (hty : x.typeOf = some tv)
    (hasg : assignableTo tv T = true) :
    c.Get key (.ptr T (some a)) d fn h now now' =
      { cache := c, heap := h.write a x, fnCalls := 0, outcome := .returned none } := by
  unfold Cache.Get
  rw [hget]
  cases x <;> simp_all [Value.typeOf, reflectValueOf, RValue.Elem, RValue.Set]

/-- The miss path with a failing loader: the cache and the memory are those
the loader left. -/
theorem Get_of_miss_error (c : Cache) (key : String) (dest : Value) (d : Int)
    (fn : Loader) (h : Heap) (now now' : Int) (e : GoError)
    (hmiss : (c.get key now).2 = false) (herr : (fn dest c h).err = some e) :
    c.Get key dest d fn h now now' =
      { cache := (fn dest c h).cache, heap := (fn dest c h).heap, fnCalls := 1,
        outcome := .returned (some e) } := by
  unfold Cache.Get
  cases hg : c.get key now with
  | mk records found =>
    rw [hg] at hmiss
    simp only at hmiss
    subst hmiss
    simp [herr]

/-- The miss path with a successful loader and a destination that is stored:
`Set` runs on the cache the loader left. -/
theorem Get_of_miss_store (c : Cache) (key : String) (T : GoType) (a : Nat) (d : Int)
    (fn : Loader) (h : Heap) (now now' : Int)
    (hmiss : (c.get key now).2 = false)
    (hok : (fn (.ptr T (some a)) c h).err = none)
    (hlen : T.kind = Kind.Slice → 0 < ((fn (.ptr T (some a)) c h).heap a).len) :
    c.Get key (.ptr T (some a)) d fn h now now' =
      { cache := (fn (.ptr T (some a)) c h).cache.Set key
          ((fn (.ptr T (some a)) c h).heap a) d now',
        heap := (fn (.ptr T (some a)) c h).heap, fnCalls := 1,
        outcome := .returned none } := by
  unfold Cache.Get
  cases hg : c.get key now with
  | mk records found =>
    rw [hg] at hmiss
    simp only at hmiss
    subst hmiss
    by_cases hk : T.kind = Kind.Slice
    · simp [hok, reflectValueOf, RValue.Elem, RValue.Kind, RValue.Len, RValue.Interface, hk,
        hlen hk]
    · simp [hok, reflectValueOf, RValue.Elem, RValue.Kind, RValue.Len, RValue.Interface, hk]

/-- The miss path with a successful loader and an empty slice as destination:
`Get` writes nothing, the cache is the one the loader left. -/
theorem Get_of_miss_empty (c : Cache) (key : String) (T : GoType) (a : Nat) (d : Int)
    (fn : Loader) (h : Heap) (now now' : Int)
    (hmiss : (c.get key now).2 = false)
    (hok : (fn (.ptr T (some a)) c h).err = none)
    (hkind : T.kind = Kind.Slice)
    (hlen : ((fn (.ptr T (some a)) c h).heap a).len = 0) :
    c.Get key (.ptr T (some a)) d fn h now now' =
      { cache := (fn (.ptr T (some a)) c h).cache,
        heap := (fn (.ptr T (some a)) c h).heap, fnCalls := 1,
        outcome := .returned none } := by
  unfold Cache.Get
  cases hg : c.get key now with
  | mk records found =>
    rw [hg] at hmiss
    simp only at hmiss
    subst hmiss
    simp [hok, reflectValueOf, RValue.Elem, RValue.Kind, RValue.Len, hkind, hlen]

/-- A value that has a type assignable to a slice-kinded type and is not an
empty slice has positive length. -/
theorem len_pos_of_not_empty (v : Value) (tv T : GoType) (hty : v.typeOf = some tv)
    (hasg : assignableTo tv T = true) (hne : isEmptySlice v = false)
    (hk : T.kind = Kind.Slice) : 0 < v.len := by
  cases T <;> simp [GoType.kind] at hk
  cases v <;> simp_all [Value.typeOf, assignableTo]
  rename_i n
  cases n with
  | zero => simp [isEmptySlice] at hne
  | succ n => simp [Value.len]

/-- After `Set`, the key maps to the new entry. -/
theorem lookup_Set_self (c : Cache) (k : String) (x : Value) (d t : Int) :
    mapLookup (c.Set k x d t).cache k =
      some { Records := x, Expiration := if d > 0 then UnixNano (t + d) else 0 } := by
  unfold Cache.Set
  exact mapLookup_mapStore_self _ _ _

/-- The hit path of `Get`, unfolded. -/
theorem Get_hit_eq (c : Cache) (key : String) (dest : Value) (d : Int)
    (fn : Loader) (h : Heap) (now now' : Int) (hhit : (c.get key now).2 = true) :
    c.Get key dest d fn h now now' =
      match (reflectValueOf dest).Elem h with
      | none => { cache := c, heap := h, fnCalls := 0, outcome := .panicked }
      | some rv =>
        match rv.Set h (reflectValueOf (c.get key now).1) with
        | none => { cache := c, heap := h, fnCalls := 0, outcome := .panicked }
        | some h2 => { cache := c, heap := h2, fnCalls := 0, outcome := .returned none } := by
  unfold Cache.Get
  cases hg : c.get key now with
  | mk records found =>
    rw [hg] at hhit
    simp only at hhit
    subst hhit
    rfl

/-- The miss path of `Get` after a successful loader, unfolded. -/
theorem Get_miss_ok_eq (c : Cache) (key : String) (dest : Value) (d : Int)
    (fn : Loader) (h : Heap) (now now' : Int) (hmiss : (c.get key now).2 = false)
    (hok : (fn dest c h).err = none) :
    c.Get key dest d fn h now now' =
      match (reflectValueOf dest).Elem (fn dest c h).heap with
      | none =>
        { cache := (fn dest c h).cache, heap := (fn dest c h).heap, fnCalls := 1,
          outcome := .panicked }
      | some rv =>
        if (rv.Kind = Kind.Slice ∧ rv.Len (fn dest c h).heap > 0) ∨ rv.Kind ≠ Kind.Slice then
          match rv.Interface (fn dest c h).heap with
          | none =>
            { cache := (fn dest c h).cache, heap := (fn dest c h).heap, fnCalls := 1,
              outcome := .panicked }
          | some v =>
            { cache := (fn dest c h).cache.Set key v d now', heap := (fn dest c h).heap,
              fnCalls := 1, outcome := .returned none }
        else
          { cache := (fn dest c h).cache, heap := (fn dest c h).heap, fnCalls := 1,
            outcome := .returned none } := by
  unfold Cache.Get
  cases hg : c.get key now with
  | mk records found =>
    rw [hg] at hmiss
    simp only at hmiss
    subst hmiss
    simp only [Bool.not_false, if_true, hok]

/-- On a hit, `Get` returns nil exactly when the destination is a non-nil
pointer and the stored value has a type assignable to the variable it points
to; otherwise it panics. -/
theorem Get_hit_outcome (c : Cache) (key : String) (dest : Value) (d : Int)
    (fn : Loader) (h : Heap) (now now' : Int) (hhit : (c.get key now).2 = true) :
    ((c.Get key dest d fn h now now').outcome = Outcome.returned none ∨
      (c.Get key dest d fn h now now').outcome = Outcome.panicked) ∧
    ((c.Get key dest d fn h now now').outcome = Outcome.returned none ↔
      ∃ (T tv : GoType) (a : Nat), dest = .ptr T (some a) ∧
        (c.get key now).1.typeOf = some tv ∧ assignableTo tv T = true) := by
  rw [Get_hit_eq c key dest d fn h now now' hhit]
  generalize (c.get key now).1 = records
  cases dest <;> simp [reflectValueOf, RValue.Elem]
  rename_i T addr
  cases addr with
  | none => simp [RValue.Elem, RValue.Set]
  | some a =>
    cases records <;> simp [RValue.Elem, RValue.Set, reflectValueOf, Value.typeOf] <;>
      split <;> simp_all

/-- On a miss with a successful loader, `Get` returns nil exactly when the
destination is a non-nil pointer; otherwise it panics. -/
theorem Get_miss_ok_outcome (c : Cache) (key : String) (dest : Value) (d : Int)
    (fn : Loader) (h : Heap) (now now' : Int) (hmiss : (c.get key now).2 = false)
    (hok : (fn dest c h).err = none) :
    ((c.Get key dest d fn h now now').outcome = Outcome.returned none ∨
      (c.Get key dest d fn h now now').outcome = Outcome.panicked) ∧
    ((c.Get key dest d fn h now now').outcome = Outcome.returned none ↔
      ∃ (T : GoType) (a : Nat), dest = .ptr T (some a)) := by
  rw [Get_miss_ok_eq c key dest d fn h now now' hmiss hok]
  generalize (fn dest c h).heap = h1
  generalize (fn dest c h).cache = c1
  cases dest <;> simp [reflectValueOf, RValue.Elem]
  rename_i T addr
  cases addr with
  | none => simp [RValue.Elem, RValue.Kind, RValue.Interface]
  | some a =>
    simp only [RValue.Elem, RValue.Kind, RValue.Interface]
    split <;> simp

/-! ## Claims -/

/-- Miss-then-hit for values that have a dynamic type. On a cache fresh from
`New`, for a value `V` that has a type and is not an empty slice and a
destination variable that accepts it, `Get` with the loader that writes `V`
invokes the loader once, returns nil and leaves `V` in the destination. A
second `Get` of the same key on the resulting cache, with any duration, any
loader, any memory, at any instant and with any destination variable that
accepts `V`, returns nil, leaves `V` in that destination and does not invoke
its loader. -/
theorem miss_then_hit_typed (K : String) (V : Value) (tv T T2 : GoType) (a a2 : Nat)
    (h h2 : Heap) (d2 : Int) (fn2 : Loader) (now now' now2 now2' : Int)
    (hty : V.typeOf = some tv) (hT : assignableTo tv T = true)
    (hT2 : assignableTo tv T2 = true) (hV : isEmptySlice V = false) :
    (New.Get K (.ptr T (some a)) 0 (loaderSetting a V) h now now').fnCalls = 1 ∧
    (New.Get K (.ptr T (some a)) 0 (loaderSetting a V) h now now').outcome
      = Outcome.returned none ∧
    (New.Get K (.ptr T (some a)) 0 (loaderSetting a V) h now now').heap a = V ∧
    ((New.Get K (.ptr T (some a)) 0 (loaderSetting a V) h now now').cache.Get K
        (.ptr T2 (some a2)) d2 fn2 h2 now2 now2').outcome = Outcome.returned none ∧
    ((New.Get K (.ptr T (some a)) 0 (loaderSetting a V) h now now').cache.Get K
        (.ptr T2 (some a2)) d2 fn2 h2 now2 now2').heap a2 = V ∧
    ((New.Get K (.ptr T (some a)) 0 (loaderSetting a V) h now now').cache.Get K
        (.ptr T2 (some a2)) d2 fn2 h2 now2 now2').fnCalls = 0 := by
  have hmiss : (New.get K now).2 = false := by
    rw [get_of_absent New K now (by simp [New, mapLookup])]
  have hw : (loaderSetting a V (.ptr T (some a)) New h).heap a = V := by
    simp [loaderSetting, Heap.write]
  have hc : (loaderSetting a V (.ptr T (some a)) New h).cache = New := rfl
  have h1 := Get_of_miss_store New K T a 0 (loaderSetting a V) h now now' hmiss
    (by simp [loaderSetting])
    (by intro hk; rw [hw]; exact len_pos_of_not_empty V tv T hty hT hV hk)
  rw [hw, hc] at h1
  have hget : (New.Set K V 0 now').get K now2 = (V, true) := by
    rw [get_of_lookup _ K now2 _ (lookup_Set_self New K V 0 now')]
    simp
  have h2' := Get_of_hit (New.Set K V 0 now') K T2 tv a2 d2 fn2 h2 now2 now2' V hget hty hT2
  rw [h1]
  simp only [h2']
  simp [hw, Heap.write]

/-- Miss-then-hit at the input of the test: a struct record, stored and read
back after the loader wrote it. -/
theorem miss_then_hit_typed_witness :
    (New.Get "key" (.ptr (.struct "TestCacheRecord") (some 0)) 0
        (loaderSetting 0 (.struct "TestCacheRecord" [.str "testrecord"]))
        emptyHeap 100 101).fnCalls = 1 ∧
    ((New.Get "key" (.ptr (.struct "TestCacheRecord") (some 0)) 0
        (loaderSetting 0 (.struct "TestCacheRecord" [.str "testrecord"]))
        emptyHeap 100 101).cache.Get "key" (.ptr (.struct "TestCacheRecord") (some 1)) 0
        loaderNoop emptyHeap 200 201).heap 1
      = .struct "TestCacheRecord" [.str "testrecord"] :=
  have w := miss_then_hit_typed "key" (.struct "TestCacheRecord" [.str "testrecord"])
    (.struct "TestCacheRecord") (.struct "TestCacheRecord") (.struct "TestCacheRecord")
    0 1 emptyHeap emptyHeap 0 loaderNoop 100 101 200 201 rfl (by decide) (by decide) rfl
  ⟨w.1, w.2.2.2.2.1⟩

/-- C1 at the nil interface value. The destination is a variable of type
`interface{}` and the loader leaves nil in it, which is not an empty slice:
the first `Get` invokes the loader, returns nil and stores nil under the key;
the lookup then finds the entry, and the second `Get` panics in
`reflect.Value.Set` instead of returning nil. -/
theorem miss_then_hit_nil_interface :
    isEmptySlice Value.nil = false ∧
    (New.Get "key" (.ptr .iface (some 0)) 0 (loaderSetting 0 Value.nil)
        emptyHeap 10 11).fnCalls = 1 ∧
    (New.Get "key" (.ptr .iface (some 0)) 0 (loaderSetting 0 Value.nil)
        emptyHeap 10 11).outcome = Outcome.returned none ∧
    (New.Get "key" (.ptr .iface (some 0)) 0 (loaderSetting 0 Value.nil)
        emptyHeap 10 11).cache.get "key" 20 = (Value.nil, true) ∧
    ((New.Get "key" (.ptr .iface (some 0)) 0 (loaderSetting 0 Value.nil)
        emptyHeap 10 11).cache.Get "key" (.ptr .iface (some 1)) 0 loaderNoop
        emptyHeap 20 21).outcome = Outcome.panicked := by
  decide

/-- C2 as stated fails before the Unix epoch: `Set` at the instant `-10` with
duration `5` stores the expiration `-5`, which is not positive, so the entry
is still found at the instant `0`, after `-10 + 5`. -/
theorem expiration_counterexample :
    (0 : Int) < 5 ∧ (-10 : Int) + 5 < 0 ∧
    (New.Set "key" (.int 1) 5 (-10)).get "key" 0 = (.int 1, true) := by
  decide

/-- C2, amended. For a duration `d > 0`, after `Set(k, x, d)` at the instant `t`
and as long as the entry of `k` is the one that `Set` wrote, the lookup at the
instant `t2` finds `x` when `t2 <= t + d`, and finds nothing when `t2 > t + d`
provided `t + d > 0`. The duration and the instants are signed 64-bit values. -/
theorem expiration_visible_until (c c2 : Cache) (k : String) (x : Value) (d t t2 : Int)
    (hd : inInt64 d) (ht : inInt64 t) (ht2 : inInt64 t2) (hpos : 0 < d)
    (hsame : mapLookup c2.cache k = mapLookup (c.Set k x d t).cache k) :
    (t2 ≤ t + d → c2.get k t2 = (x, true)) ∧
    (0 < t + d → t + d < t2 → c2.get k t2 = (Value.nil, false)) := by
  rw [lookup_Set_self] at hsame
  rw [get_of_lookup c2 k t2 _ hsame]
  simp only [gt_iff_lt, hpos, if_true]
  unfold UnixNano
  rw [wrap64_of_inInt64 t2 ht2]
  unfold inInt64 at hd ht ht2
  constructor
  · intro hle
    have hn : ¬ (0 < wrap64 (t + d) ∧ wrap64 (t + d) < t2) := by
      unfold wrap64
      omega
    simp [hn]
  · intro h0 hlt
    have hy : 0 < wrap64 (t + d) ∧ wrap64 (t + d) < t2 := by
      unfold wrap64
      omega
    simp [hy]

/-- C2, amended, at the durations of the test: set at 0 with 20 ms, found at
20 ms and missed at 25 ms. -/
theorem expiration_visible_until_witness :
    (New.Set "key" (.int 1) 20000000 0).get "key" 20000000 = (.int 1, true) ∧
    (New.Set "key" (.int 1) 20000000 0).get "key" 25000000 = (Value.nil, false) :=
  have w := expiration_visible_until New (New.Set "key" (.int 1) 20000000 0) "key" (.int 1)
    20000000 0 20000000 (by decide) (by decide) (by decide) (by decide) rfl
  have w2 := expiration_visible_until New (New.Set "key" (.int 1) 20000000 0) "key" (.int 1)
    20000000 0 25000000 (by decide) (by decide) (by decide) (by decide) rfl
  ⟨w.1 (by decide), w2.2 (by decide) (by decide)⟩

/-- C3, never-expire. For a duration `d <= 0`, after `Set(k, x, d)` and as long
as the entry of `k` is the one that `Set` wrote, the lookup finds `x` at every
instant. -/
theorem never_expire (c c2 : Cache) (k : String) (x : Value) (d t t2 : Int)
    (hd : d ≤ 0)
    (hsame : mapLookup c2.cache k = mapLookup (c.Set k x d t).cache k) :
    c2.get k t2 = (x, true) := by
  rw [lookup_Set_self] at hsame
  rw [get_of_lookup c2 k t2 _ hsame]
  have hnd : ¬ (d > 0) := by omega
  simp [hnd]

/-- C3 at a concrete input: set with duration 0 and, after a `Set` of another
key, looked up at the last instant of the 64-bit range. -/
theorem never_expire_witness :
    ((New.Set "key" (.int 1) 0 5).Set "other" (.int 2) 7 6).get "key" 9223372036854775807
      = (.int 1, true) :=
  never_expire New ((New.Set "key" (.int 1) 0 5).Set "other" (.int 2) 7 6) "key" (.int 1)
    0 5 9223372036854775807 (by decide) (by decide)

/-- C4 as stated fails for a loader that calls back into the cache: on a miss,
the loader calls `c.Set("key", 99, 0)` and then fails. `Get` returns the
loader's error, but the mapping is not the one before the call and the key is
found on the next lookup. -/
theorem loader_error_counterexample :
    (New.get "key" 10).2 = false ∧
    (New.Get "key" (.ptr .int (some 0)) 0
        (loaderThenSet (loaderFailing "boom") "key" (.int 99) 0 10)
        emptyHeap 10 11).outcome = Outcome.returned (some "boom") ∧
    (New.Get "key" (.ptr .int (some 0)) 0
        (loaderThenSet (loaderFailing "boom") "key" (.int 99) 0 10)
        emptyHeap 10 11).cache ≠ New ∧
    (New.Get "key" (.ptr .int (some 0)) 0
        (loaderThenSet (loaderFailing "boom") "key" (.int 99) 0 10)
        emptyHeap 10 11).cache.get "key" 12 = (.int 99, true) := by
  decide

/-- C4, amended. When the lookup misses and the loader returns the error `e`,
`Get` returns exactly `e` after one invocation of the loader, whatever the
destination is, and writes nothing itself: the cache and the memory after the
call are those the loader left. When the loader left the cache as it was, the
cache after the call is the cache before it, and the key is still a miss at
the instant of the call and at every later instant. -/
theorem loader_error_propagation (c : Cache) (key : String) (dest : Value) (d : Int)
    (fn : Loader) (h : Heap) (now now' : Int) (e : GoError)
    (hmiss : (c.get key now).2 = false) (herr : (fn dest c h).err = some e) :
    (c.Get key dest d fn h now now').outcome = Outcome.returned (some e) ∧
    (c.Get key dest d fn h now now').fnCalls = 1 ∧
    (c.Get key dest d fn h now now').heap = (fn dest c h).heap ∧
    (c.Get key dest d fn h now now').cache = (fn dest c h).cache ∧
    ((fn dest c h).cache = c →
      (c.Get key dest d fn h now now').cache = c ∧
      ((c.Get key dest d fn h now now').cache.get key now).2 = false ∧
      (∀ t : Int, inInt64 now → inInt64 t → now ≤ t →
        ((c.Get key dest d fn h now now').cache.get key t).2 = false)) := by
  rw [Get_of_miss_error c key dest d fn h now now' e hmiss herr]
  refine ⟨rfl, rfl, rfl, rfl, ?_⟩
  intro hc
  simp only [hc]
  refine ⟨trivial, hmiss, ?_⟩
  intro t hnow ht hle
  exact get_miss_later c key now t hnow ht hle hmiss

/-- C4, amended, at a concrete input: a failing loader that leaves the cache
alone, on a cache that holds another key. -/
theorem loader_error_propagation_witness :
    ((New.Set "other" (.int 2) 0 1).Get "key" (.ptr .int (some 0)) 5
        (loaderFailing "boom") emptyHeap 10 11).outcome = Outcome.returned (some "boom") ∧
    ((New.Set "other" (.int 2) 0 1).Get "key" (.ptr .int (some 0)) 5
        (loaderFailing "boom") emptyHeap 10 11).cache = New.Set "other" (.int 2) 0 1 :=
  have w := loader_error_propagation (New.Set "other" (.int 2) 0 1) "key"
    (.ptr .int (some 0)) 5 (loaderFailing "boom") emptyHeap 10 11 "boom" (by decide) rfl
  ⟨w.1, (w.2.2.2.2 rfl).1⟩

/-- C5 as stated fails for empty sequences that are not held by a slice
variable: an empty slice that the loader leaves in a variable of type
`interface{}`, and an array of length 0, are both stored under the key. -/
theorem empty_sequence_counterexample :
    (Value.slice .int (some 7) 0).len = 0 ∧
    mapLookup (New.Get "key" (.ptr .iface (some 0)) 0
        (loaderSetting 0 (.slice .int (some 7) 0)) emptyHeap 10 11).cache.cache "key"
      = some { Records := .slice .int (some 7) 0, Expiration := 0 } ∧
    (Value.array .int []).len = 0 ∧
    mapLookup (New.Get "key" (.ptr (.array 0 .int) (some 0)) 0
        (loaderSetting 0 (.array .int [])) emptyHeap 10 11).cache.cache "key"
      = some { Records := .array .int [], Expiration := 0 } := by
  decide

/-- C5, amended. On a miss whose loader succeeds: if the destination is a
variable of slice type that holds a slice of length 0 (nil slice or not),
`Get` returns nil and writes nothing itself, so the cache is the one the
loader left; when the loader left the cache as it was, the cache is unchanged
and the key still misses. If the destination holds a slice of positive
length, or if the destination variable is of any other kind than slice (a
variable of type `interface{}` that holds an empty slice and an array of
length 0 included), `Get` returns nil and the key has an entry holding the
destination's value. -/
theorem empty_sequence_suppression (c : Cache) (key : String) (T : GoType) (a : Nat)
    (d : Int) (fn : Loader) (h : Heap) (now now' : Int)
    (hmiss : (c.get key now).2 = false)
    (hok : (fn (.ptr T (some a)) c h).err = none) :
    (∀ (E : GoType) (data : Option Nat), T = .slice E →
      (fn (.ptr T (some a)) c h).heap a = .slice E data 0 →
      (c.Get key (.ptr T (some a)) d fn h now now').outcome = Outcome.returned none ∧
      (c.Get key (.ptr T (some a)) d fn h now now').cache = (fn (.ptr T (some a)) c h).cache ∧
      ((fn (.ptr T (some a)) c h).cache = c →
        (c.Get key (.ptr T (some a)) d fn h now now').cache = c ∧
        ((c.Get key (.ptr T (some a)) d fn h now now').cache.get key now).2 = false)) ∧
    (∀ (E : GoType) (data : Option Nat) (n : Nat), T = .slice E →
      (fn (.ptr T (some a)) c h).heap a = .slice E data (n + 1) →
      (c.Get key (.ptr T (some a)) d fn h now now').outcome = Outcome.returned none ∧
      ∃ e : Int, mapLookup (c.Get key (.ptr T (some a)) d fn h now now').cache.cache key
        = some { Records := .slice E data (n + 1), Expiration := e }) ∧
    (T.kind ≠ Kind.Slice →
      (c.Get key (.ptr T (some a)) d fn h now now').outcome = Outcome.returned none ∧
      ∃ e : Int, mapLookup (c.Get key (.ptr T (some a)) d fn h now now').cache.cache key
        = some { Records := (fn (.ptr T (some a)) c h).heap a, Expiration := e }) := by
  refine ⟨?_, ?_, ?_⟩
  · intro E data hT hval
    rw [Get_of_miss_empty c key T a d fn h now now' hmiss hok (by rw [hT]; rfl)
      (by rw [hval]; rfl)]
    refine ⟨rfl, rfl, ?_⟩
    intro hc
    simp only [hc]
    exact ⟨trivial, hmiss⟩
  · intro E data n hT hval
    rw [Get_of_miss_store c key T a d fn h now now' hmiss hok
      (by intro _; rw [hval]; simp [Value.len])]
    refine ⟨rfl, ?_⟩
    rw [hval]
    exact ⟨_, lookup_Set_self _ key _ d now'⟩
  · intro hk
    rw [Get_of_miss_store c key T a d fn h now now' hmiss hok (fun hk' => absurd hk' hk)]
    exact ⟨rfl, _, lookup_Set_self _ key _ d now'⟩

/-- C5, amended, at concrete inputs: an empty slice in a slice variable is not
stored, a slice of length 2 and the zero integer are. -/
theorem empty_sequence_suppression_witness :
    (New.Get "key" (.ptr (.slice .int) (some 0)) 0
        (loaderSetting 0 (.slice .int (some 7) 0)) emptyHeap 10 11).cache = New ∧
    (∃ e : Int, mapLookup (New.Get "key" (.ptr (.slice .int) (some 0)) 0
        (loaderSetting 0 (.slice .int (some 7) 2)) emptyHeap 10 11).cache.cache "key"
        = some { Records := .slice .int (some 7) 2, Expiration := e }) ∧
    (∃ e : Int, mapLookup (New.Get "key" (.ptr .int (some 0)) 0
        (loaderSetting 0 (.int 0)) emptyHeap 10 11).cache.cache "key"
        = some { Records := .int 0, Expiration := e }) :=
  ⟨(((empty_sequence_suppression New "key" (.slice .int) 0 0
      (loaderSetting 0 (.slice .int (some 7) 0)) emptyHeap 10 11 (by decide) rfl).1
      .int (some 7) rfl rfl).2.2 rfl).1,
   ((empty_sequence_suppression New "key" (.slice .int) 0 0
      (loaderSetting 0 (.slice .int (some 7) 2)) emptyHeap 10 11 (by decide) rfl).2.1
      .int (some 7) 1 rfl rfl).2,
   ((empty_sequence_suppression New "key" .int 0 0
      (loaderSetting 0 (.int 0)) emptyHeap 10 11 (by decide) rfl).2.2 (by decide)).2⟩

/-- C6, hit path. When the lookup finds `x`, `Get` with a destination variable
of the type of `x` returns nil, leaves `x` in the destination whatever the
memory held, leaves the rest of the memory and the cache as they were, and
does not invoke the loader: the result is the same for every loader. -/
theorem hit_path (c : Cache) (k : String) (x : Value) (T : GoType) (a : Nat) (d : Int)
    (fn : Loader) (h : Heap) (now now' : Int)
    (hget : c.get k now = (x, true)) (hty : x.typeOf = some T) :
    (c.Get k (.ptr T (some a)) d fn h now now').outcome = Outcome.returned none ∧
    (c.Get k (.ptr T (some a)) d fn h now now').heap a = x ∧
    (∀ b : Nat, b ≠ a → (c.Get k (.ptr T (some a)) d fn h now now').heap b = h b) ∧
    (c.Get k (.ptr T (some a)) d fn h now now').fnCalls = 0 ∧
    (c.Get k (.ptr T (some a)) d fn h now now').cache = c ∧
    (∀ fn2 : Loader, c.Get k (.ptr T (some a)) d fn2 h now now'
      = c.Get k (.ptr T (some a)) d fn h now now') := by
  have hasg : assignableTo T T = true := by simp [assignableTo]
  rw [Get_of_hit c k T T a d fn h now now' x hget hty hasg]
  refine ⟨rfl, by simp [Heap.write], ?_, rfl, rfl, ?_⟩
  · intro b hb
    simp [Heap.write, hb]
  · intro fn2
    exact Get_of_hit c k T T a d fn2 h now now' x hget hty hasg

/-- C6 at a concrete input: a stored string overwrites what the destination
held, and a failing loader goes unused. -/
theorem hit_path_witness :
    ((New.Set "key" (.str "stored") 0 1).Get "key" (.ptr .string (some 3)) 9
        (loaderFailing "boom") (emptyHeap.write 3 (.str "old")) 10 11).outcome
      = Outcome.returned none ∧
    ((New.Set "key" (.str "stored") 0 1).Get "key" (.ptr .string (some 3)) 9
        (loaderFailing "boom") (emptyHeap.write 3 (.str "old")) 10 11).heap 3
      = .str "stored" :=
  have w := hit_path (New.Set "key" (.str "stored") 0 1) "key" (.str "stored") .string 3 9
    (loaderFailing "boom") (emptyHeap.write 3 (.str "old")) 10 11 (by decide) rfl
  ⟨w.1, w.2.1⟩

/-- C7 as stated fails for a loader that calls back into the cache: on a miss,
the loader assigns 1 to the destination and calls `c.Set("other", 7, 0)`. The
cache after `Get` has two entries; `Set("key", 1, 0)` on the cache before the
call has one. -/
theorem miss_path_counterexample :
    (New.get "key" 10).2 = false ∧
    (New.Get "key" (.ptr .int (some 0)) 0
        (loaderThenSet (loaderSetting 0 (.int 1)) "other" (.int 7) 0 10)
        emptyHeap 10 11).outcome = Outcome.returned none ∧
    (New.Get "key" (.ptr .int (some 0)) 0
        (loaderThenSet (loaderSetting 0 (.int 1)) "other" (.int 7) 0 10)
        emptyHeap 10 11).heap 0 = .int 1 ∧
    (New.Get "key" (.ptr .int (some 0)) 0
        (loaderThenSet (loaderSetting 0 (.int 1)) "other" (.int 7) 0 10)
        emptyHeap 10 11).cache ≠ New.Set "key" (.int 1) 0 11 ∧
    (New.Get "key" (.ptr .int (some 0)) 0
        (loaderThenSet (loaderSetting 0 (.int 1)) "other" (.int 7) 0 10)
        emptyHeap 10 11).cache.entries = 2 ∧
    (New.Set "key" (.int 1) 0 11).entries = 1 := by
  decide

/-- C7, amended. On a miss whose loader returns nil and leaves in the
destination variable a value `v` that fits the variable and is not an empty
slice, the cache after `Get(key, dest, d, fn)` is the cache that
`Set(key, v, d)` gives on the cache the loader left, at the instant read after
the loader returned; that is `Set(key, v, d)` on the cache before the call
when the loader left the cache as it was. The key then maps to `v` with the
expiration `Set` derives from `d`; `Get` returns nil after one invocation of
the loader and the destination still holds `v`. -/
theorem miss_path_stores_like_Set (c : Cache) (key : String) (T : GoType) (a : Nat)
    (d : Int) (fn : Loader) (h : Heap) (now now' : Int) (v : Value)
    (hmiss : (c.get key now).2 = false)
    (hok : (fn (.ptr T (some a)) c h).err = none)
    (hv : (fn (.ptr T (some a)) c h).heap a = v)
    (hfit : T = .iface ∨ v.typeOf = some T)
    (hne : isEmptySlice v = false) :
    (c.Get key (.ptr T (some a)) d fn h now now').cache
      = (fn (.ptr T (some a)) c h).cache.Set key v d now' ∧
    ((fn (.ptr T (some a)) c h).cache = c →
      (c.Get key (.ptr T (some a)) d fn h now now').cache = c.Set key v d now') ∧
    mapLookup (c.Get key (.ptr T (some a)) d fn h now now').cache.cache key
      = some { Records := v, Expiration := if d > 0 then UnixNano (now' + d) else 0 } ∧
    (c.Get key (.ptr T (some a)) d fn h now now').outcome = Outcome.returned none ∧
    (c.Get key (.ptr T (some a)) d fn h now now').heap a = v ∧
    (c.Get key (.ptr T (some a)) d fn h now now').fnCalls = 1 := by
  have hlen : T.kind = Kind.Slice → 0 < ((fn (.ptr T (some a)) c h).heap a).len := by
    intro hk
    rw [hv]
    rcases hfit with hi | hty
    · rw [hi] at hk
      simp [GoType.kind] at hk
    · exact len_pos_of_not_empty v T T hty (by simp [assignableTo]) hne hk
  rw [Get_of_miss_store c key T a d fn h now now' hmiss hok hlen, hv]
  refine ⟨rfl, ?_, lookup_Set_self _ key v d now', rfl, hv, rfl⟩
  intro hc
  rw [hc]

/-- C7, amended, at concrete inputs: the zero struct and the nil interface
value are stored as `Set` would store them. -/
theorem miss_path_stores_like_Set_witness :
    (New.Get "key" (.ptr (.struct "TestCacheRecord") (some 0)) 20000000
        (loaderSetting 0 (.struct "TestCacheRecord" [.str ""])) emptyHeap 10 11).cache
      = New.Set "key" (.struct "TestCacheRecord" [.str ""]) 20000000 11 ∧
    (New.Get "key" (.ptr .iface (some 0)) 0 loaderNoop emptyHeap 10 11).cache
      = New.Set "key" Value.nil 0 11 :=
  ⟨(miss_path_stores_like_Set New "key" (.struct "TestCacheRecord") 0 20000000
      (loaderSetting 0 (.struct "TestCacheRecord" [.str ""])) emptyHeap 10 11
      (.struct "TestCacheRecord" [.str ""]) (by decide) rfl rfl (Or.inr rfl) rfl).2.1 rfl,
   (miss_path_stores_like_Set New "key" .iface 0 0 loaderNoop emptyHeap 10 11
      Value.nil (by decide) rfl rfl (Or.inl rfl) rfl).2.1 rfl⟩

/-- C8 as stated fails when `t + d` leaves the signed 64-bit range: `Set` with
the largest duration at an instant of the year 2023 stores a negative
expiration, not `t + d`. -/
theorem set_expiration_counterexample :
    (0 : Int) < 9223372036854775807 ∧
    mapLookup (New.Set "key" (.int 1) 9223372036854775807 1700000000000000000).cache "key"
      = some { Records := .int 1, Expiration := -7523372036854775809 } ∧
    (-7523372036854775809 : Int) ≠ 1700000000000000000 + 9223372036854775807 := by
  decide

/-- C8, amended. `Set(k, x, d)` at the instant `t` makes `k` map to `(x, e)`
where `e` is `t + d` reduced to the signed 64-bit range if `d > 0` (which is
`t + d` itself when that is in range) and `0` otherwise; a prior entry of `k`
is replaced, every other key keeps its entry, the number of entries grows by
one if `k` was absent and is unchanged otherwise, and one `Set` on a fresh
cache gives exactly one entry, holding `x`. -/
theorem set_postcondition_frame (c : Cache) (k : String) (x : Value) (d t : Int) :
    mapLookup (c.Set k x d t).cache k
      = some { Records := x, Expiration := if 0 < d then wrap64 (t + d) else 0 } ∧
    (0 < d → inInt64 (t + d) →
      mapLookup (c.Set k x d t).cache k = some { Records := x, Expiration := t + d }) ∧
    (d ≤ 0 → mapLookup (c.Set k x d t).cache k = some { Records := x, Expiration := 0 }) ∧
    (∀ k2 : String, k2 ≠ k → mapLookup (c.Set k x d t).cache k2 = mapLookup c.cache k2) ∧
    (mapLookup c.cache k = none → (c.Set k x d t).entries = c.entries + 1) ∧
    (mapLookup c.cache k ≠ none → (c.Set k x d t).entries = c.entries) ∧
    (New.Set k x d t).entries = 1 ∧
    (∃ e : Int, (New.Set k x d t).cache = [(k, { Records := x, Expiration := e })]) := by
  have hself := lookup_Set_self c k x d t
  refine ⟨?_, ?_, ?_, ?_, ?_, ?_, ?_, ?_⟩
  · rw [hself]
    rfl
  · intro hd hin
    rw [hself]
    simp [hd, UnixNano, wrap64_of_inInt64 (t + d) hin]
  · intro hd
    rw [hself]
    have hnd : ¬ (d > 0) := by omega
    simp [hnd]
  · intro k2 hne
    exact mapLookup_mapStore_ne c.cache k k2 _ hne
  · intro habs
    exact length_mapStore_absent c.cache k _ habs
  · intro hpres
    exact length_mapStore_present c.cache k _ hpres
  · rfl
  · exact ⟨_, rfl⟩

/-- C8, amended, at concrete inputs: a `Set` that replaces an entry and a `Set`
that adds one. -/
theorem set_postcondition_frame_witness :
    mapLookup ((New.Set "" (.int 1) 0 5).Set "" (.int 2) 20000000 7).cache ""
      = some { Records := .int 2, Expiration := 20000007 } ∧
    ((New.Set "" (.int 1) 0 5).Set "" (.int 2) 20000000 7).entries = 1 ∧
    ((New.Set "" (.int 1) 0 5).Set "key" (.int 2) 20000000 7).entries = 2 :=
  ⟨(set_postcondition_frame (New.Set "" (.int 1) 0 5) "" (.int 2) 20000000 7).2.1
      (by decide) (by decide),
   (set_postcondition_frame (New.Set "" (.int 1) 0 5) "" (.int 2) 20000000 7).2.2.2.2.2.1
      (by decide),
   (set_postcondition_frame (New.Set "" (.int 1) 0 5) "key" (.int 2) 20000000 7).2.2.2.2.1
      (by decide)⟩

/-- C9, flush clears everything. For every cache, `Flush` gives the cache that
`New` produces, which has zero entries, and the lookup then finds nothing for
every key at every instant. -/
theorem flush_clears_everything (c : Cache) :
    c.Flush = New ∧ c.Flush.entries = 0 ∧
    ∀ (k : String) (t : Int), c.Flush.get k t = (Value.nil, false) :=
  ⟨rfl, rfl, fun _ _ => rfl⟩

/-- C10 as stated fails on a hit whose stored value does not fit the
destination: the lookup finds the integer, the destination is a string
variable, and `Get` panics instead of returning nil. -/
theorem single_error_counterexample :
    ((New.Set "key" (.int 1) 0 1).get "key" 10).2 = true ∧
    ((New.Set "key" (.int 1) 0 1).Get "key" (.ptr .string (some 0)) 0 loaderNoop
        emptyHeap 10 11).outcome = Outcome.panicked ∧
    ((New.Set "key" (.int 1) 0 1).Get "key" (.ptr .string (some 0)) 0 loaderNoop
        emptyHeap 10 11).outcome ≠ Outcome.returned none := by
  decide

/-- C10, amended. `Get` returns the error `e` if and only if the lookup missed
and the loader returned `e`; on a hit and on a miss whose loader returns nil
it returns no error. It returns nil on a hit when the destination is a
non-nil pointer and the stored value has a type assignable to the variable it
points to, and on a miss whose loader returns nil when the destination is a
non-nil pointer. On a hit whose stored value has a type that is not
assignable to that variable, the call panics. -/
theorem single_error_condition (c : Cache) (key : String) (dest : Value) (d : Int)
    (fn : Loader) (h : Heap) (now now' : Int) :
    (∀ e : GoError, (c.Get key dest d fn h now now').outcome = Outcome.returned (some e) ↔
      ((c.get key now).2 = false ∧ (fn dest c h).err = some e)) ∧
    ((c.get key now).2 = true ∨ (fn dest c h).err = none →
      ∀ e : GoError, (c.Get key dest d fn h now now').outcome ≠ Outcome.returned (some e)) ∧
    (∀ (T tv : GoType) (a : Nat), (c.get key now).2 = true → dest = .ptr T (some a) →
      (c.get key now).1.typeOf = some tv → assignableTo tv T = true →
      (c.Get key dest d fn h now now').outcome = Outcome.returned none) ∧
    (∀ (T : GoType) (a : Nat), (c.get key now).2 = false → (fn dest c h).err = none →
      dest = .ptr T (some a) →
      (c.Get key dest d fn h now now').outcome = Outcome.returned none) ∧
    (∀ (T tv : GoType) (a : Nat), (c.get key now).2 = true → dest = .ptr T (some a) →
      (c.get key now).1.typeOf = some tv → assignableTo tv T = false →
      (c.Get key dest d fn h now now').outcome = Outcome.panicked) := by
  have hiff : ∀ e : GoError,
      (c.Get key dest d fn h now now').outcome = Outcome.returned (some e) ↔
      ((c.get key now).2 = false ∧ (fn dest c h).err = some e) := by
    intro e
    cases hf : (c.get key now).2 with
    | true =>
      have ho := (Get_hit_outcome c key dest d fn h now now' hf).1
      constructor
      · intro he
        rw [he] at ho
        simp at ho
      · intro hr
        simp at hr
    | false =>
      cases hl : (fn dest c h).err with
      | none =>
        have ho := (Get_miss_ok_outcome c key dest d fn h now now' hf hl).1
        constructor
        · intro he
          rw [he] at ho
          simp at ho
        · intro hr
          simp at hr
      | some e2 =>
        rw [Get_of_miss_error c key dest d fn h now now' e2 hf hl]
        simp
  refine ⟨hiff, ?_, ?_, ?_, ?_⟩
  · intro hor e he
    have hb := (hiff e).1 he
    rcases hor with hhit | hnil
    · rw [hhit] at hb
      simp at hb
    · rw [hnil] at hb
      simp at hb
  · intro T tv a hhit hdest hty hasg
    exact (Get_hit_outcome c key dest d fn h now now' hhit).2.2 ⟨T, tv, a, hdest, hty, hasg⟩
  · intro T a hmiss hok hdest
    exact (Get_miss_ok_outcome c key dest d fn h now now' hmiss hok).2.2 ⟨T, a, hdest⟩
  · intro T tv a hhit hdest hty hasg
    have ho := Get_hit_outcome c key dest d fn h now now' hhit
    rcases ho.1 with hret | hpan
    · obtain ⟨T2, tv2, a2, hd2, hty2, hasg2⟩ := ho.2.1 hret
      rw [hdest] at hd2
      rw [hty] at hty2
      cases hd2
      cases hty2
      rw [hasg] at hasg2
      cases hasg2
    · exact hpan

/-- C10, amended, at concrete inputs: a failing loader on a miss gives its
error, and a hit with a fitting destination gives nil although the loader
would fail. -/
theorem single_error_condition_witness :
    (New.Get "key" (.ptr .int (some 0)) 0 (loaderFailing "boom") emptyHeap 10 11).outcome
      = Outcome.returned (some "boom") ∧
    ((New.Set "key" (.int 1) 0 1).Get "key" (.ptr .int (some 0)) 0 (loaderFailing "boom")
        emptyHeap 10 11).outcome = Outcome.returned none :=
  ⟨((single_error_condition New "key" (.ptr .int (some 0)) 0 (loaderFailing "boom")
      emptyHeap 10 11).1 "boom").2 ⟨by decide, rfl⟩,
   (single_error_condition (New.Set "key" (.int 1) 0 1) "key" (.ptr .int (some 0)) 0
      (loaderFailing "boom") emptyHeap 10 11).2.2.1 .int .int 0 (by decide) rfl
      (by decide) (by decide)⟩

/-- The traced lookup returns what `get` returns. -/
theorem getTraced_result (c : Cache) (k : String) (now : Int) :
    (c.getTraced k now).result = c.get k now := by
  unfold Cache.getTraced Cache.get
  cases mapLookup c.cache k with
  | none => rfl
  | some obj =>
    by_cases h1 : obj.Expiration > 0
    · by_cases h2 : UnixNano now > obj.Expiration
      · simp [h1, h2]
      · simp [h1, h2]
    · simp [h1]

/-- The traced lookup returns with the cache it was called on. -/
theorem getTraced_cache (c : Cache) (k : String) (now : Int) :
    (c.getTraced k now).cache = c := by
  unfold Cache.getTraced
  cases mapLookup c.cache k with
  | none => rfl
  | some obj =>
    by_cases h1 : obj.Expiration > 0
    · by_cases h2 : UnixNano now > obj.Expiration
      · simp [h1, h2]
      · simp [h1, h2]
    · simp [h1]

/-- The events of the lookup are the same on its three return paths. -/
theorem getTraced_events (c : Cache) (k : String) (now : Int) :
    (c.getTraced k now).events = [MuEvent.RLock, MuEvent.mapRead, MuEvent.RUnlock] := by
  unfold Cache.getTraced
  cases mapLookup c.cache k with
  | none => rfl
  | some obj =>
    by_cases h1 : obj.Expiration > 0
    · by_cases h2 : UnixNano now > obj.Expiration
      · simp [h1, h2]
      · simp [h1, h2]
    · simp [h1]

/-- C11, lazy expiration. The internal lookup returns with the cache it was
called on and performs no write of the map. When it returns not-found because
the entry of the key has expired, that entry is still in the map with the
same value and expiration and the number of entries is the same; a later
`Set` of the key replaces it and a `Flush` removes it. -/
theorem lazy_expiration (c : Cache) (k : String) (now : Int) :
    (c.getTraced k now).cache = c ∧
    (c.getTraced k now).result = c.get k now ∧
    MuEvent.mapWrite ∉ (c.getTraced k now).events ∧
    (∀ obj : CacheObject, mapLookup c.cache k = some obj →
      0 < obj.Expiration → obj.Expiration < UnixNano now →
      (c.getTraced k now).result = (Value.nil, false) ∧
      mapLookup (c.getTraced k now).cache.cache k = some obj ∧
      (c.getTraced k now).cache.entries = c.entries ∧
      (∀ (x : Value) (d t : Int),
        mapLookup ((c.getTraced k now).cache.Set k x d t).cache k
          = some { Records := x, Expiration := if d > 0 then UnixNano (t + d) else 0 } ∧
        ((c.getTraced k now).cache.Set k x d t).entries = c.entries) ∧
      mapLookup (c.getTraced k now).cache.Flush.cache k = none) := by
  refine ⟨getTraced_cache c k now, getTraced_result c k now, ?_, ?_⟩
  · rw [getTraced_events]
    decide
  · intro obj hobj hpos hexp
    rw [getTraced_cache, getTraced_result, get_of_lookup c k now obj hobj]
    refine ⟨by simp [hpos, hexp], hobj, rfl, ?_, rfl⟩
    intro x d t
    refine ⟨lookup_Set_self c k x d t, ?_⟩
    exact length_mapStore_present c.cache k _ (by rw [hobj]; simp)

/-- C11 at the durations of the test: the entry set at 0 with 20 ms is missed
at 25 ms and is still the entry of the key. -/
theorem lazy_expiration_witness :
    ((New.Set "key" (.int 1) 20000000 0).getTraced "key" 25000000).result
      = (Value.nil, false) ∧
    mapLookup ((New.Set "key" (.int 1) 20000000 0).getTraced "key" 25000000).cache.cache "key"
      = some { Records := .int 1, Expiration := 20000000 } ∧
    ((New.Set "key" (.int 1) 20000000 0).getTraced "key" 25000000).cache.entries = 1 :=
  have w := (lazy_expiration (New.Set "key" (.int 1) 20000000 0) "key" 25000000).2.2.2
    { Records := .int 1, Expiration := 20000000 } (by decide) (by decide) (by decide)
  ⟨w.1, w.2.1, w.2.2.1⟩

/-- C12 as stated fails for a slice. The loader leaves in the destination a
slice of two integers whose backing array is at address 7, and `Get` stores
it. While the array is untouched a later `Get` returns the elements 1 and 2;
after the caller assigned 9 to the first element of the slice it had passed
in, a later `Get` of the same key returns the elements 9 and 2. -/
theorem value_copy_counterexample :
    observe
      (((New.Get "key" (.ptr (.slice .int) (some 0)) 0
          (loaderWriting [(7, .array .int [.int 1, .int 2]), (0, .slice .int (some 7) 2)])
          emptyHeap 10 11).cache.Get "key" (.ptr (.slice .int) (some 1)) 0 loaderNoop
          (New.Get "key" (.ptr (.slice .int) (some 0)) 0
            (loaderWriting [(7, .array .int [.int 1, .int 2]), (0, .slice .int (some 7) 2)])
            emptyHeap 10 11).heap 20 21).heap)
      (((New.Get "key" (.ptr (.slice .int) (some 0)) 0
          (loaderWriting [(7, .array .int [.int 1, .int 2]), (0, .slice .int (some 7) 2)])
          emptyHeap 10 11).cache.Get "key" (.ptr (.slice .int) (some 1)) 0 loaderNoop
          (New.Get "key" (.ptr (.slice .int) (some 0)) 0
            (loaderWriting [(7, .array .int [.int 1, .int 2]), (0, .slice .int (some 7) 2)])
            emptyHeap 10 11).heap 20 21).heap 1)
      = (.slice .int (some 7) 2, [.array .int [.int 1, .int 2]]) ∧
    observe
      (((New.Get "key" (.ptr (.slice .int) (some 0)) 0
          (loaderWriting [(7, .array .int [.int 1, .int 2]), (0, .slice .int (some 7) 2)])
          emptyHeap 10 11).cache.Get "key" (.ptr (.slice .int) (some 1)) 0 loaderNoop
          ((New.Get "key" (.ptr (.slice .int) (some 0)) 0
            (loaderWriting [(7, .array .int [.int 1, .int 2]), (0, .slice .int (some 7) 2)])
            emptyHeap 10 11).heap.write 7 (.array .int [.int 9, .int 2])) 20 21).heap)
      (((New.Get "key" (.ptr (.slice .int) (some 0)) 0
          (loaderWriting [(7, .array .int [.int 1, .int 2]), (0, .slice .int (some 7) 2)])
          emptyHeap 10 11).cache.Get "key" (.ptr (.slice .int) (some 1)) 0 loaderNoop
          ((New.Get "key" (.ptr (.slice .int) (some 0)) 0
            (loaderWriting [(7, .array .int [.int 1, .int 2]), (0, .slice .int (some 7) 2)])
            emptyHeap 10 11).heap.write 7 (.array .int [.int 9, .int 2])) 20 21).heap 1)
      = (.slice .int (some 7) 2, [.array .int [.int 9, .int 2]]) := by
  decide

/-- C12, amended. On a hit `Get` writes the stored value itself into the
destination, whatever the caller's memory holds at that time; what the caller
then sees through it is the content of the memory the value refers to. For a
stored value that refers to no memory (no slice with a backing array, no
non-nil pointer and no other reference such as a map, channel or func,
directly or in a field or element) the result is therefore
the same for every state of the caller's memory: the copy is independent. On
a miss that stores, the entry holds the value the destination held when the
loader returned. -/
theorem value_copy_on_read (c : Cache) (k : String) (x : Value) (T : GoType) (a : Nat)
    (d : Int) (fn : Loader) (h : Heap) (now now' : Int) :
    (c.get k now = (x, true) → x.typeOf = some T →
      (c.Get k (.ptr T (some a)) d fn h now now').heap a = x ∧
      (c.Get k (.ptr T (some a)) d fn h now now').cache = c ∧
      observe (c.Get k (.ptr T (some a)) d fn h now now').heap
          ((c.Get k (.ptr T (some a)) d fn h now now').heap a)
        = (x, x.refs.map (h.write a x)) ∧
      (x.refs = [] →
        observe (c.Get k (.ptr T (some a)) d fn h now now').heap
          ((c.Get k (.ptr T (some a)) d fn h now now').heap a) = (x, []))) ∧
    ((c.get k now).2 = false → (fn (.ptr T (some a)) c h).err = none →
      (fn (.ptr T (some a)) c h).heap a = x → (T = .iface ∨ x.typeOf = some T) →
      isEmptySlice x = false →
      ∃ e : Int, mapLookup (c.Get k (.ptr T (some a)) d fn h now now').cache.cache k
        = some { Records := x, Expiration := e }) := by
  constructor
  · intro hget hty
    have hasg : assignableTo T T = true := by simp [assignableTo]
    rw [Get_of_hit c k T T a d fn h now now' x hget hty hasg]
    have hw : (h.write a x) a = x := by simp [Heap.write]
    refine ⟨hw, rfl, ?_, ?_⟩
    · simp only [observe, hw]
    · intro hrefs
      simp only [observe, hw, hrefs, List.map_nil]
  · intro hmiss hok hv hfit hne
    have hlen : T.kind = Kind.Slice → 0 < ((fn (.ptr T (some a)) c h).heap a).len := by
      intro hk
      rw [hv]
      rcases hfit with hi | hty
      · rw [hi] at hk
        simp [GoType.kind] at hk
      · exact len_pos_of_not_empty x T T hty (by simp [assignableTo]) hne hk
    rw [Get_of_miss_store c k T a d fn h now now' hmiss hok hlen, hv]
    exact ⟨_, lookup_Set_self _ k x d now'⟩

/-- C12, amended, at a concrete input: a stored struct of a string is returned
unchanged although the caller has overwritten the memory in between. -/
theorem value_copy_on_read_witness :
    observe
      ((New.Set "key" (.struct "TestCacheRecord" [.str "testrecord"]) 0 1).Get "key"
        (.ptr (.struct "TestCacheRecord") (some 1)) 0 loaderNoop
        (emptyHeap.write 7 (.int 9)) 20 21).heap
      (((New.Set "key" (.struct "TestCacheRecord" [.str "testrecord"]) 0 1).Get "key"
        (.ptr (.struct "TestCacheRecord") (some 1)) 0 loaderNoop
        (emptyHeap.write 7 (.int 9)) 20 21).heap 1)
      = (.struct "TestCacheRecord" [.str "testrecord"], []) :=
  ((value_copy_on_read (New.Set "key" (.struct "TestCacheRecord" [.str "testrecord"]) 0 1)
    "key" (.struct "TestCacheRecord" [.str "testrecord"]) (.struct "TestCacheRecord") 1 0
    loaderNoop (emptyHeap.write 7 (.int 9)) 20 21).1 (by decide) rfl).2.2.2 (by decide)

/-- C13, locking discipline. From any state in which the goroutine does not
hold the mutex exclusively, the events of the lookup respect the discipline
(the read of the map happens under the shared hold) and end in the same
state, with exactly one `RLock` and one `RUnlock` whichever return path is
taken and no write of the map. From any state in which the goroutine holds
nothing, the events of `Set` and of `Flush` respect the discipline (the write
of the map happens under the exclusive hold) and end in the same state, with
exactly one `Lock` and one `Unlock`. The traced operations compute what the
plain ones compute. -/
theorem locking_discipline (c : Cache) (k : String) (x : Value) (d now : Int) :
    (∀ m : Held, m.exclusive = false →
      Held.run m (c.getTraced k now).events = some m) ∧
    (c.getTraced k now).events.count MuEvent.RLock = 1 ∧
    (c.getTraced k now).events.count MuEvent.RUnlock = 1 ∧
    (c.getTraced k now).events.getLast? = some MuEvent.RUnlock ∧
    MuEvent.mapWrite ∉ (c.getTraced k now).events ∧
    (∀ m : Held, m.exclusive = false → m.shared = 0 →
      Held.run m (c.SetTraced k x d now).events = some m ∧
      Held.run m c.FlushTraced.events = some m) ∧
    (c.SetTraced k x d now).events.count MuEvent.Lock = 1 ∧
    (c.SetTraced k x d now).events.count MuEvent.Unlock = 1 ∧
    c.FlushTraced.events.count MuEvent.Lock = 1 ∧
    c.FlushTraced.events.count MuEvent.Unlock = 1 ∧
    (∀ m : Held, m.exclusive = false →
      Held.run m [MuEvent.mapWrite] = none ∧
      (m.shared = 0 → Held.run m [MuEvent.mapRead] = none)) ∧
    (c.getTraced k now).result = c.get k now ∧
    (c.SetTraced k x d now).cache = c.Set k x d now ∧
    c.FlushTraced.cache = c.Flush := by
  refine ⟨?_, ?_, ?_, ?_, ?_, ?_, ?_, ?_, ?_, ?_, ?_, getTraced_result c k now, rfl, rfl⟩
  · intro m hm
    rw [getTraced_events]
    obtain ⟨sh, ex⟩ := m
    simp only at hm
    subst hm
    simp [Held.run, Held.step]
  · rw [getTraced_events]
    decide
  · rw [getTraced_events]
    decide
  · rw [getTraced_events]
    decide
  · rw [getTraced_events]
    decide
  · intro m hm hs
    obtain ⟨sh, ex⟩ := m
    simp only at hm hs
    subst hm
    subst hs
    simp [Cache.SetTraced, Cache.FlushTraced, Held.run, Held.step]
  · simp [Cache.SetTraced]
  · simp [Cache.SetTraced]
  · simp [Cache.FlushTraced]
  · simp [Cache.FlushTraced]
  · intro m hm
    obtain ⟨sh, ex⟩ := m
    simp only at hm
    subst hm
    constructor
    · simp [Held.run, Held.step]
    · intro hs
      simp only at hs
      subst hs
      simp [Held.run, Held.step]

/-- C13 at a concrete input: the lookup of an expired entry while the
goroutine already has two shared holds, and a `Set` and a `Flush` from no
hold. -/
theorem locking_discipline_witness :
    Held.run { shared := 2, exclusive := false }
        ((New.Set "key" (.int 1) 20000000 0).getTraced "key" 25000000).events
      = some { shared := 2, exclusive := false } ∧
    Held.run { shared := 0, exclusive := false }
        ((New.Set "key" (.int 1) 20000000 0).SetTraced "key" (.int 2) 0 1).events
      = some { shared := 0, exclusive := false } ∧
    Held.run { shared := 0, exclusive := false }
        (New.Set "key" (.int 1) 20000000 0).FlushTraced.events
      = some { shared := 0, exclusive := false } :=
  have w := locking_discipline (New.Set "key" (.int 1) 20000000 0) "key" (.int 2) 0 25000000
  have w2 := locking_discipline (New.Set "key" (.int 1) 20000000 0) "key" (.int 2) 0 1
  ⟨w.1 { shared := 2, exclusive := false } rfl,
   (w2.2.2.2.2.2.1 { shared := 0, exclusive := false } rfl rfl).1,
   (w2.2.2.2.2.2.1 { shared := 0, exclusive := false } rfl rfl).2⟩

/-- A lookup that misses returns the nil interface value. -/
theorem get_eq_of_miss (c : Cache) (k : String) (now : Int)
    (hmiss : (c.get k now).2 = false) : c.get k now = (Value.nil, false) := by
  cases hobj : mapLookup c.cache k with
  | none => exact get_of_absent c k now hobj
  | some obj =>
    rw [get_of_lookup c k now obj hobj] at hmiss ⊢
    by_cases h : 0 < obj.Expiration ∧ obj.Expiration < UnixNano now
    · simp [h]
    · simp [h] at hmiss

/-- On a miss, what `Get` does depends on the cache only through the loader
and the `Set` it may perform: for two caches on which the key misses and a
loader that leaves the same memory and returns the same error on both, the
outcome, the memory and the number of loader invocations are the same, and
either both caches are as the loader left them or both receive the same
`Set` after it. -/
theorem Get_miss_congr (c c0 : Cache) (key : String) (dest : Value) (d : Int)
    (fn : Loader) (h : Heap) (now now' : Int)
    (hmiss : (c.get key now).2 = false) (hmiss0 : (c0.get key now).2 = false)
    (hheap : (fn dest c h).heap = (fn dest c0 h).heap)
    (herr : (fn dest c h).err = (fn dest c0 h).err) :
    (c.Get key dest d fn h now now').outcome = (c0.Get key dest d fn h now now').outcome ∧
    (c.Get key dest d fn h now now').heap = (c0.Get key dest d fn h now now').heap ∧
    (c.Get key dest d fn h now now').fnCalls = (c0.Get key dest d fn h now now').fnCalls ∧
    (((c.Get key dest d fn h now now').cache = (fn dest c h).cache ∧
        (c0.Get key dest d fn h now now').cache = (fn dest c0 h).cache) ∨
      ∃ v : Value,
        (c.Get key dest d fn h now now').cache = (fn dest c h).cache.Set key v d now' ∧
        (c0.Get key dest d fn h now now').cache = (fn dest c0 h).cache.Set key v d now') := by
  cases hl : (fn dest c h).err with
  | some e =>
    have hl0 : (fn dest c0 h).err = some e := by rw [← herr, hl]
    rw [Get_of_miss_error c key dest d fn h now now' e hmiss hl,
      Get_of_miss_error c0 key dest d fn h now now' e hmiss0 hl0]
    exact ⟨rfl, hheap, rfl, Or.inl ⟨rfl, rfl⟩⟩
  | none =>
    have hl0 : (fn dest c0 h).err = none := by rw [← herr, hl]
    rw [Get_miss_ok_eq c key dest d fn h now now' hmiss hl,
      Get_miss_ok_eq c0 key dest d fn h now now' hmiss0 hl0, ← hheap]
    cases RValue.Elem (fn dest c h).heap (reflectValueOf dest) with
    | none => exact ⟨rfl, rfl, rfl, Or.inl ⟨rfl, rfl⟩⟩
    | some rv =>
      simp only
      split
      · cases RValue.Interface (fn dest c h).heap rv with
        | none => exact ⟨rfl, rfl, rfl, Or.inl ⟨rfl, rfl⟩⟩
        | some v => exact ⟨rfl, rfl, rfl, Or.inr ⟨v, rfl, rfl⟩⟩
      · exact ⟨rfl, rfl, rfl, Or.inl ⟨rfl, rfl⟩⟩

/-- C14, expired entries are misses for `Get`. With the key mapped to an
entry that has expired at the instant of the lookup, `Get` with a destination
variable invokes the loader once, returns the loader's error and leaves the
memory as the loader left it, so the stale value is never written; when the
result is stored the key maps to the new value with the expiration that `Set`
derives from this call's duration, and the number of entries is unchanged
when the loader left the cache as it was. It does what it does on a cache in
which the key is absent: for a loader that leaves the same memory and returns
the same error on both caches, same outcome, same memory, same number of
loader invocations and the same `Set` or none after the loader. -/
theorem expired_entry_is_miss (c c0 : Cache) (k : String) (obj : CacheObject)
    (T : GoType) (a : Nat) (d : Int) (fn : Loader) (h : Heap) (now now' : Int)
    (hobj : mapLookup c.cache k = some obj) (hpos : 0 < obj.Expiration)
    (hexp : obj.Expiration < UnixNano now) (habs : mapLookup c0.cache k = none) :
    ((fn (.ptr T (some a)) c h).heap = (fn (.ptr T (some a)) c0 h).heap →
      (fn (.ptr T (some a)) c h).err = (fn (.ptr T (some a)) c0 h).err →
      (c.Get k (.ptr T (some a)) d fn h now now').outcome
        = (c0.Get k (.ptr T (some a)) d fn h now now').outcome ∧
      (c.Get k (.ptr T (some a)) d fn h now now').heap
        = (c0.Get k (.ptr T (some a)) d fn h now now').heap ∧
      (c.Get k (.ptr T (some a)) d fn h now now').fnCalls
        = (c0.Get k (.ptr T (some a)) d fn h now now').fnCalls ∧
      (((c.Get k (.ptr T (some a)) d fn h now now').cache
            = (fn (.ptr T (some a)) c h).cache ∧
          (c0.Get k (.ptr T (some a)) d fn h now now').cache
            = (fn (.ptr T (some a)) c0 h).cache) ∨
        ∃ v : Value,
          (c.Get k (.ptr T (some a)) d fn h now now').cache
            = (fn (.ptr T (some a)) c h).cache.Set k v d now' ∧
          (c0.Get k (.ptr T (some a)) d fn h now now').cache
            = (fn (.ptr T (some a)) c0 h).cache.Set k v d now')) ∧
    (c.Get k (.ptr T (some a)) d fn h now now').fnCalls = 1 ∧
    (c.Get k (.ptr T (some a)) d fn h now now').outcome
      = Outcome.returned (fn (.ptr T (some a)) c h).err ∧
    (c.Get k (.ptr T (some a)) d fn h now now').heap = (fn (.ptr T (some a)) c h).heap ∧
    ((fn (.ptr T (some a)) c h).err = none →
      (T.kind = Kind.Slice → 0 < ((fn (.ptr T (some a)) c h).heap a).len) →
      mapLookup (c.Get k (.ptr T (some a)) d fn h now now').cache.cache k
        = some { Records := (fn (.ptr T (some a)) c h).heap a,
                 Expiration := if d > 0 then UnixNano (now' + d) else 0 } ∧
      ((fn (.ptr T (some a)) c h).cache = c →
        (c.Get k (.ptr T (some a)) d fn h now now').cache.entries = c.entries)) := by
  have hmiss : (c.get k now).2 = false := by
    rw [get_of_lookup c k now obj hobj]
    simp [hpos, hexp]
  have hmiss0 : (c0.get k now).2 = false := by
    rw [get_of_absent c0 k now habs]
  refine ⟨fun hheap herr => Get_miss_congr c c0 k _ d fn h now now' hmiss hmiss0 hheap herr,
    ?_, ?_, ?_, ?_⟩
  · cases hl : (fn (.ptr T (some a)) c h).err with
    | some e => rw [Get_of_miss_error c k _ d fn h now now' e hmiss hl]
    | none =>
      by_cases hlen : T.kind = Kind.Slice → 0 < ((fn (.ptr T (some a)) c h).heap a).len
      · rw [Get_of_miss_store c k T a d fn h now now' hmiss hl hlen]
      · rw [Get_of_miss_empty c k T a d fn h now now' hmiss hl
          (by by_contra hk; exact hlen (fun hk2 => absurd hk2 hk))
          (by by_contra hz; exact hlen (fun _ => Nat.pos_of_ne_zero hz))]
  · cases hl : (fn (.ptr T (some a)) c h).err with
    | some e => rw [Get_of_miss_error c k _ d fn h now now' e hmiss hl]
    | none =>
      by_cases hlen : T.kind = Kind.Slice → 0 < ((fn (.ptr T (some a)) c h).heap a).len
      · rw [Get_of_miss_store c k T a d fn h now now' hmiss hl hlen]
      · rw [Get_of_miss_empty c k T a d fn h now now' hmiss hl
          (by by_contra hk; exact hlen (fun hk2 => absurd hk2 hk))
          (by by_contra hz; exact hlen (fun _ => Nat.pos_of_ne_zero hz))]
  · cases hl : (fn (.ptr T (some a)) c h).err with
    | some e => rw [Get_of_miss_error c k _ d fn h now now' e hmiss hl]
    | none =>
      by_cases hlen : T.kind = Kind.Slice → 0 < ((fn (.ptr T (some a)) c h).heap a).len
      · rw [Get_of_miss_store c k T a d fn h now now' hmiss hl hlen]
      · rw [Get_of_miss_empty c k T a d fn h now now' hmiss hl
          (by by_contra hk; exact hlen (fun hk2 => absurd hk2 hk))
          (by by_contra hz; exact hlen (fun _ => Nat.pos_of_ne_zero hz))]
  · intro hl hlen
    rw [Get_of_miss_store c k T a d fn h now now' hmiss hl hlen]
    refine ⟨lookup_Set_self _ k _ d now', ?_⟩
    intro hc
    simp only [hc]
    exact length_mapStore_present c.cache k _ (by rw [hobj]; simp)

/-- C14 at the input of the test: the record set at 0 with 20 ms has expired
at 25 ms; `Get` with a loader that does nothing leaves the zero record in the
destination and stores it in place of the stale one. -/
theorem expired_entry_is_miss_witness :
    ((New.Set "key" (.struct "TestCacheRecord" [.str "testrecord"]) 20000000 0).Get "key"
        (.ptr (.struct "TestCacheRecord") (some 3)) 0 loaderNoop
        (emptyHeap.write 3 (.struct "TestCacheRecord" [.str ""])) 25000000 25000001).heap 3
      = .struct "TestCacheRecord" [.str ""] ∧
    mapLookup ((New.Set "key" (.struct "TestCacheRecord" [.str "testrecord"]) 20000000
        0).Get "key" (.ptr (.struct "TestCacheRecord") (some 3)) 0 loaderNoop
        (emptyHeap.write 3 (.struct "TestCacheRecord" [.str ""])) 25000000
        25000001).cache.cache "key"
      = some { Records := .struct "TestCacheRecord" [.str ""], Expiration := 0 } ∧
    ((New.Set "key" (.struct "TestCacheRecord" [.str "testrecord"]) 20000000 0).Get "key"
        (.ptr (.struct "TestCacheRecord") (some 3)) 0 loaderNoop
        (emptyHeap.write 3 (.struct "TestCacheRecord" [.str ""])) 25000000 25000001).outcome
      = (New.Get "key"
        (.ptr (.struct "TestCacheRecord") (some 3)) 0 loaderNoop
        (emptyHeap.write 3 (.struct "TestCacheRecord" [.str ""])) 25000000 25000001).outcome :=
  have w := expired_entry_is_miss
    (New.Set "key" (.struct "TestCacheRecord" [.str "testrecord"]) 20000000 0) New "key"
    { Records := .struct "TestCacheRecord" [.str "testrecord"], Expiration := 20000000 }
    (.struct "TestCacheRecord") 3 0 loaderNoop
    (emptyHeap.write 3 (.struct "TestCacheRecord" [.str ""])) 25000000 25000001
    (by decide) (by decide) (by decide) (by decide)
  ⟨by rw [w.2.2.2.1]; rfl, (w.2.2.2.2 rfl (by decide)).1, (w.1 rfl rfl).1⟩

/-- On a hit the cache is left as it was and the loader is not invoked,
whatever the destination is and however the call ends. -/
theorem Get_hit_cache (c : Cache) (key : String) (dest : Value) (d : Int)
    (fn : Loader) (h : Heap) (now now' : Int) (hhit : (c.get key now).2 = true) :
    (c.Get key dest d fn h now now').cache = c ∧
    (c.Get key dest d fn h now now').fnCalls = 0 := by
  rw [Get_hit_eq c key dest d fn h now now' hhit]
  cases RValue.Elem h (reflectValueOf dest) with
  | none => exact ⟨rfl, rfl⟩
  | some rv =>
    simp only
    cases RValue.Set h rv (reflectValueOf (c.get key now).1) with
    | none => exact ⟨rfl, rfl⟩
    | some h2 => exact ⟨rfl, rfl⟩

/-- A sequence of calls of `Get` that all hit leaves the cache as it was. -/
theorem GetMany_of_hits (c : Cache) (key : String) (calls : List GetCall)
    (hhits : ∀ g ∈ calls, (c.get key g.now).2 = true) : c.GetMany key calls = c := by
  induction calls with
  | nil => rfl
  | cons g gs ih =>
    unfold Cache.GetMany
    rw [(Get_hit_cache c key g.dest g.d g.fn g.heap g.now g.now'
      (hhits g (List.mem_cons_self g gs))).1]
    exact ih (fun g2 hg2 => hhits g2 (List.mem_cons_of_mem g hg2))

/-- The lookup after a `Set` with a positive duration whose expiration is
positive: found up to the expiration, not found after it. -/
theorem get_Set_positive (c : Cache) (k : String) (x : Value) (d t t2 : Int)
    (hd : inInt64 d) (ht : inInt64 t) (ht2 : inInt64 t2) (hpos : 0 < d)
    (hexp : 0 < t + d) :
    (t2 ≤ t + d → (c.Set k x d t).get k t2 = (x, true)) ∧
    (t + d < t2 → (c.Set k x d t).get k t2 = (Value.nil, false)) := by
  rw [get_of_lookup _ k t2 _ (lookup_Set_self c k x d t)]
  simp only [gt_iff_lt, hpos, if_true]
  unfold UnixNano
  rw [wrap64_of_inInt64 t2 ht2]
  unfold inInt64 at hd ht ht2
  constructor
  · intro hle
    have hn : ¬ (0 < wrap64 (t + d) ∧ wrap64 (t + d) < t2) := by
      unfold wrap64
      omega
    simp [hn]
  · intro hlt
    have hy : 0 < wrap64 (t + d) ∧ wrap64 (t + d) < t2 := by
      unfold wrap64
      omega
    simp [hy]

/-- Hit-path type safety for stored values that have a dynamic type. On a
hit with a destination variable of type `T`: if the type of the stored value
is assignable to `T` the call returns nil; if it is not, the call panics; in
both cases the cache is left as it was, and after a panic so is the memory. -/
theorem hit_type_safety_typed (c : Cache) (k : String) (x : Value) (T tv : GoType)
    (a : Nat) (d : Int) (fn : Loader) (h : Heap) (now now' : Int)
    (hget : c.get k now = (x, true)) (hty : x.typeOf = some tv) :
    (assignableTo tv T = true →
      (c.Get k (.ptr T (some a)) d fn h now now').outcome = Outcome.returned none) ∧
    (assignableTo tv T = false →
      (c.Get k (.ptr T (some a)) d fn h now now').outcome = Outcome.panicked ∧
      (c.Get k (.ptr T (some a)) d fn h now now').heap = h) ∧
    (c.Get k (.ptr T (some a)) d fn h now now').cache = c := by
  have hhit : (c.get k now).2 = true := by rw [hget]
  refine ⟨?_, ?_, (Get_hit_cache c k _ d fn h now now' hhit).1⟩
  · intro hasg
    rw [Get_of_hit c k T tv a d fn h now now' x hget hty hasg]
  · intro hasg
    rw [Get_hit_eq c k _ d fn h now now' hhit, hget]
    cases x <;> simp_all [Value.typeOf, reflectValueOf, RValue.Elem, RValue.Set]

/-- C15 at an entry that `Get` stored itself. The destination is a variable
of type `interface{}` that holds nil and the loader leaves it so: `Get`
stores nil under the key. The lookup then finds the entry, and `Get` with a
destination of the same type panics in `reflect.Value.Set` instead of
completing normally; the cache is left as it was. -/
theorem hit_type_safety_nil_interface :
    mapLookup (New.Get "key" (.ptr .iface (some 0)) 0 loaderNoop emptyHeap 10 11).cache.cache
        "key" = some { Records := Value.nil, Expiration := 0 } ∧
    ((New.Get "key" (.ptr .iface (some 0)) 0 loaderNoop emptyHeap 10 11).cache.get
        "key" 20).2 = true ∧
    ((New.Get "key" (.ptr .iface (some 0)) 0 loaderNoop emptyHeap 10 11).cache.Get "key"
        (.ptr .iface (some 0)) 0 loaderNoop emptyHeap 20 21).outcome = Outcome.panicked ∧
    ((New.Get "key" (.ptr .iface (some 0)) 0 loaderNoop emptyHeap 10 11).cache.Get "key"
        (.ptr .iface (some 0)) 0 loaderNoop emptyHeap 20 21).cache
      = (New.Get "key" (.ptr .iface (some 0)) 0 loaderNoop emptyHeap 10 11).cache := by
  decide

/-- C16 as stated fails before the Unix epoch: the entry set at the instant
`-10` with duration `5` is found by a `Get` at `-8`, which leaves the cache as
it was, and it is still found at the instant `0`, after `-10 + 5`. -/
theorem hit_never_writes_counterexample :
    (0 : Int) < 5 ∧ (-10 : Int) + 5 < 0 ∧
    ((New.Set "key" (.int 1) 5 (-10)).get "key" (-8)).2 = true ∧
    ((New.Set "key" (.int 1) 5 (-10)).Get "key" (.ptr .int (some 0)) 7 loaderNoop
        emptyHeap (-8) (-8)).cache = New.Set "key" (.int 1) 5 (-10) ∧
    ((New.Set "key" (.int 1) 5 (-10)).Get "key" (.ptr .int (some 0)) 7 loaderNoop
        emptyHeap (-8) (-8)).cache.get "key" 0 = (.int 1, true) := by
  decide

/-- C16, amended. When the lookup finds the key, `Get` leaves the cache as it
was for every duration, destination, loader and memory, and so does every
sequence of such calls: the entry keeps its expiration. An entry stored with
a duration `d > 0` at the instant `t` with `t + d > 0` is therefore found up
to `t + d` and not found after it, however often it was read in between. The
duration and the instants are signed 64-bit values. -/
theorem hit_never_writes (c : Cache) (key : String) :
    (∀ (dest : Value) (d : Int) (fn : Loader) (h : Heap) (now now' : Int),
      (c.get key now).2 = true → (c.Get key dest d fn h now now').cache = c) ∧
    (∀ calls : List GetCall, (∀ g ∈ calls, (c.get key g.now).2 = true) →
      c.GetMany key calls = c) ∧
    (∀ (c1 : Cache) (x : Value) (d t t2 : Int) (calls : List GetCall),
      c = c1.Set key x d t → inInt64 d → inInt64 t → inInt64 t2 → 0 < d → 0 < t + d →
      (∀ g ∈ calls, (c.get key g.now).2 = true) →
      (t2 ≤ t + d → (c.GetMany key calls).get key t2 = (x, true)) ∧
      (t + d < t2 → (c.GetMany key calls).get key t2 = (Value.nil, false))) := by
  refine ⟨?_, ?_, ?_⟩
  · intro dest d fn h now now' hhit
    exact (Get_hit_cache c key dest d fn h now now' hhit).1
  · intro calls hhits
    exact GetMany_of_hits c key calls hhits
  · intro c1 x d t t2 calls hc hd ht ht2 hpos hexp hhits
    rw [GetMany_of_hits c key calls hhits, hc]
    exact get_Set_positive c1 key x d t t2 hd ht ht2 hpos hexp

/-- C16, amended, at the durations of the test: the entry set at 0 with 20 ms
is read twice with other durations and is missed at 25 ms. -/
theorem hit_never_writes_witness :
    ((New.Set "key" (.int 1) 20000000 0).GetMany "key"
        [{ dest := .ptr .int (some 0), d := 0, fn := loaderNoop, heap := emptyHeap,
           now := 5000000, now' := 5000000 },
         { dest := .ptr .int (some 0), d := 60000000, fn := loaderNoop, heap := emptyHeap,
           now := 10000000, now' := 10000000 }]).get "key" 25000000
      = (Value.nil, false) :=
  ((hit_never_writes (New.Set "key" (.int 1) 20000000 0) "key").2.2 New (.int 1) 20000000 0
    25000000
    [{ dest := .ptr .int (some 0), d := 0, fn := loaderNoop, heap := emptyHeap,
       now := 5000000, now' := 5000000 },
     { dest := .ptr .int (some 0), d := 60000000, fn := loaderNoop, heap := emptyHeap,
       now := 10000000, now' := 10000000 }]
    rfl (by decide) (by decide) (by decide) (by decide) (by decide) (by decide)).2
    (by decide)

/-- C17, expiry is monotone in time. For one cache and key and clock readings
that are signed 64-bit values: if the lookup finds nothing at `t` it finds
nothing at every `t2 >= t`, and if it finds `x` at `t` it finds `x` at every
`t2 <= t`. -/
theorem expiry_monotone (c : Cache) (k : String) (t t2 : Int) (x : Value)
    (ht : inInt64 t) (ht2 : inInt64 t2) :
    (t ≤ t2 → (c.get k t).2 = false → c.get k t2 = (Value.nil, false)) ∧
    (t2 ≤ t → c.get k t = (x, true) → c.get k t2 = (x, true)) := by
  constructor
  · intro hle hmiss
    exact get_eq_of_miss c k t2 (get_miss_later c k t t2 ht ht2 hle hmiss)
  · intro hle hfound
    cases hobj : mapLookup c.cache k with
    | none =>
      rw [get_of_absent c k t hobj] at hfound
      simp at hfound
    | some obj =>
      rw [get_of_lookup c k t obj hobj] at hfound
      rw [get_of_lookup c k t2 obj hobj]
      unfold UnixNano at *
      rw [wrap64_of_inInt64 t ht] at hfound
      rw [wrap64_of_inInt64 t2 ht2]
      by_cases h1 : 0 < obj.Expiration ∧ obj.Expiration < t
      · simp [h1] at hfound
      · have h2 : ¬ (0 < obj.Expiration ∧ obj.Expiration < t2) := by
          intro h3
          exact h1 ⟨h3.1, by omega⟩
        simp [h1] at hfound
        simp [h2, hfound]

/-- C17 at the durations of the test: missed at 25 ms, hence at 30 ms; found
at 20 ms, hence at 10 ms. -/
theorem expiry_monotone_witness :
    (New.Set "key" (.int 1) 20000000 0).get "key" 30000000 = (Value.nil, false) ∧
    (New.Set "key" (.int 1) 20000000 0).get "key" 10000000 = (.int 1, true) :=
  ⟨(expiry_monotone (New.Set "key" (.int 1) 20000000 0) "key" 25000000 30000000 Value.nil
      (by decide) (by decide)).1 (by decide) (by decide),
   (expiry_monotone (New.Set "key" (.int 1) 20000000 0) "key" 20000000 10000000 (.int 1)
      (by decide) (by decide)).2 (by decide) (by decide)⟩

/-- C18, the never-expires sentinel is not reachable from a positive duration.
For `d > 0` and an instant `t >= 0` with `t + d` in the signed 64-bit range,
`Set` stores the expiration `t + d`, which is positive, so the lookup compares
it with the clock: the entry is not found at the clock readings after
`t + d` and found at the others. -/
theorem positive_duration_not_sentinel (c : Cache) (k : String) (x : Value) (d t : Int)
    (hd : 0 < d) (ht : 0 ≤ t) (hin : inInt64 (t + d)) :
    mapLookup (c.Set k x d t).cache k = some { Records := x, Expiration := t + d } ∧
    0 < t + d ∧
    (∀ t2 : Int, (c.Set k x d t).get k t2 =
      if t + d < UnixNano t2 then (Value.nil, false) else (x, true)) ∧
    (∀ t2 : Int, inInt64 t2 → t + d < t2 → (c.Set k x d t).get k t2 = (Value.nil, false)) := by
  have hlk : mapLookup (c.Set k x d t).cache k
      = some { Records := x, Expiration := t + d } := by
    rw [lookup_Set_self]
    simp [hd, UnixNano, wrap64_of_inInt64 (t + d) hin]
  have hpos : 0 < t + d := by omega
  refine ⟨hlk, hpos, ?_, ?_⟩
  · intro t2
    rw [get_of_lookup _ k t2 _ hlk]
    simp [hpos]
  · intro t2 ht2 hlt
    rw [get_of_lookup _ k t2 _ hlk]
    simp [hpos, UnixNano, wrap64_of_inInt64 t2 ht2, hlt]

/-- C18 at the durations of the test: set at 0 with 20 ms stores the
expiration 20000000 and the entry is missed at 25 ms. -/
theorem positive_duration_not_sentinel_witness :
    mapLookup (New.Set "key" (.int 1) 20000000 0).cache "key"
      = some { Records := .int 1, Expiration := 20000000 } ∧
    (New.Set "key" (.int 1) 20000000 0).get "key" 25000000 = (Value.nil, false) :=
  have w := positive_duration_not_sentinel New "key" (.int 1) 20000000 0
    (by decide) (by decide) (by decide)
  ⟨w.1, w.2.2.2 25000000 (by decide) (by decide)⟩

end Cachely
